import Mathlib

/-!
Shallow embedding of `src/skills/functions/evals/files/sample_python.py`
(`process_orders`).  Decimal amounts are modelled as exact rationals (`Rat`);
Python's `0.01` tolerance is the rational `1/100`.  Dict accesses through
`.get` with a default are modelled with `Option`; the batch is a list of
`Option Order` (`order is None` is `none`).  Side effects (SQL queries and
updates, the HTTP post, the log write) are recorded in an explicit effect
trace, and exceptions raised by the collaborators are modelled with `Except`:
the source has no `try/except` around `db.execute` or the log write, so an
error there propagates out of `process_orders`; the bare `except` around
`requests.post` swallows notification errors.
-/

namespace OrderPipeline

/-- One entry of `order["items"]`: fields `sku`, `price`, `quantity`. -/
structure OrderItem where
  sku : String
  price : Rat
  quantity : Int
deriving Repr, DecidableEq

/-- An order dict.  `status` and `total` are read with `.get` in the source,
so they are `Option`; `customer_id`, `id` and `items` are accessed with
`[...]` (the source would raise `KeyError` were they absent) and are plain
fields.  `processed_at` holds the clock value at mutation time. -/
structure Order where
  id : Nat
  customer_id : Nat
  status : Option String
  total : Option Rat
  items : List OrderItem
  processed_at : Option Nat
deriving Repr, DecidableEq

/-- A row of the `customers` table; the pipeline only reads `status`. -/
structure Customer where
  id : Nat
  status : String
deriving Repr, DecidableEq

/-- The `config` dict: `tax_rate`, `free_shipping_threshold`, `shipping_rate`,
`webhook_url`, `log_dir`. -/
structure Config where
  tax_rate : Rat
  free_shipping_threshold : Rat
  shipping_rate : Rat
  webhook_url : String
  log_dir : String
deriving Repr, DecidableEq

/-- Observable side effects of the pipeline, in execution order. -/
inductive Effect where
  | queryCustomer (id : Nat)
  | queryInventory (sku : String)
  | decrementInventory (sku : String) (qty : Int)
  | saveOrder (order : Order)
  | notifyPost (url : String) (order_id : Nat) (total : Rat)
  | logWrite (dir : String) (order_id : Nat) (total : Rat)
deriving Repr, DecidableEq

/-- Exceptions the collaborators can raise: a database error from
`db.execute`, or an I/O error opening/writing the log file. -/
inductive PyErr where
  | dbError
  | ioError
deriving Repr, DecidableEq

/-- Modelled from the spec: the external `db` collaborator and notifier are
not part of the repository, so following the Store/Notifier/Logger contracts
of the spec (lookups return a row or absent; `decrementInventory`,
`saveProcessedOrder`, `send` and the log write each either succeed or error)
the environment carries the customer table, the initial inventory table, and
flags saying which effectful calls succeed. -/
structure Db where
  customers : List (Nat × Customer)
  inventory : List (String × Int)
  decrement_ok : String → Int → Bool
  save_ok : Bool
  notify_ok : Bool
  log_ok : Bool

/-- SQL `SELECT ... WHERE key = k` on an association-list table: first
matching row, or absent. -/
def lookupRow {α β : Type} [DecidableEq α] : List (α × β) → α → Option β
  | [], _ => none
  | (k, v) :: rest, a => if k = a then some v else lookupRow rest a

/-- SQL `UPDATE inventory SET quantity = quantity - q WHERE sku = s`:
every row whose key matches is decremented. -/
def updateDecrement : List (String × Int) → String → Int → List (String × Int)
  | [], _, _ => []
  | (k, v) :: rest, sku, q =>
    if k = sku then (k, v - q) :: updateDecrement rest sku q
    else (k, v) :: updateDecrement rest sku q

/-- Mutable state threaded through the batch: the inventory table, a clock
(each `datetime.now()` call reads and advances it), the effect trace, and the
`processed_orders` table. -/
structure St where
  inventory : List (String × Int)
  clock : Nat
  trace : List Effect
  saved_orders : List Order
deriving Repr, DecidableEq

/-- The inventory-check loop (source lines 28-32): walk the items in listed
order, query stock for each, and stop at the first item whose stock row is
missing or whose available quantity is below the requested quantity.
Returns the list of SKUs actually queried and the SKU of the first failing
item (`none` when the loop completes, i.e. the `for/else` else-branch). -/
def stockCheck (inventory : List (String × Int)) : List OrderItem → List String × Option String
  | [] => ([], none)
  | item :: rest =>
    match lookupRow inventory item.sku with
    | none => ([item.sku], some item.sku)
    | some q =>
      if q < item.quantity then ([item.sku], some item.sku)
      else
        let r := stockCheck inventory rest
        (item.sku :: r.1, r.2)

/-- The inventory-update loop (source lines 46-48): one `db.execute` per
item, in listed order; an erroring execute raises and aborts the order and
the batch. -/
def decrementAll (db : Db) : List OrderItem → St → Except PyErr St
  | [], st => .ok st
  | item :: rest, st =>
    if db.decrement_ok item.sku item.quantity then
      decrementAll db rest
        { st with
          inventory := updateDecrement st.inventory item.sku item.quantity,
          trace := st.trace ++ [.decrementInventory item.sku item.quantity] }
    else .error .dbError

/-- Source line 35: `sum(i["price"] * i["quantity"] for i in order["items"])`. -/
def subtotalOf (items : List OrderItem) : Rat :=
  (items.map (fun i => i.price * (i.quantity : Rat))).sum

/-- One entry of the `results` list (source line 70). -/
structure ProcRec where
  order_id : Nat
  total : Rat
  status : String
deriving Repr, DecidableEq

/-- One entry of the `failed` list: the order dict and a reason string. -/
structure Failure where
  order : Order
  reason : String
deriving Repr, DecidableEq

/-- What one loop iteration did with one batch entry: silently skipped it,
appended to `failed`, or appended to `results` (carrying the order value as
it stands after the iteration, mutated on a non-dry-run success). -/
inductive Outcome where
  | skipped
  | failedO (f : Failure)
  | processedO (r : ProcRec) (ord : Order)
deriving Repr, DecidableEq

/-- One iteration of the batch loop (source lines 10-70) over one entry of
`orders`. -/
def processOrder (config : Config) (db : Db) (notify dry_run : Bool)
    (st : St) (o : Option Order) : Except PyErr (Outcome × St) :=
  match o with
  | none => .ok (.skipped, st)
  | some order =>
    if order.status ≠ some "pending" then .ok (.skipped, st)
    else if order.total.getD 0 ≤ 0 then .ok (.failedO ⟨order, "invalid total"⟩, st)
    else
      let st1 : St := { st with trace := st.trace ++ [.queryCustomer order.customer_id] }
      match lookupRow db.customers order.customer_id with
      | none => .ok (.failedO ⟨order, "customer not found"⟩, st1)
      | some customer =>
        if customer.status = "banned" then .ok (.failedO ⟨order, "customer banned"⟩, st1)
        else
          let check := stockCheck st1.inventory order.items
          let st2 : St := { st1 with trace := st1.trace ++ check.1.map Effect.queryInventory }
          match check.2 with
          | some sku => .ok (.failedO ⟨order, "insufficient stock for " ++ sku⟩, st2)
          | none =>
            let subtotal := subtotalOf order.items
            let tax := subtotal * config.tax_rate
            let shipping : Rat :=
              if subtotal > config.free_shipping_threshold then 0 else config.shipping_rate
            let total := subtotal + tax + shipping
            if |total - order.total.getD 0| > 1/100 then
              .ok (.failedO ⟨order, "total mismatch"⟩, st2)
            else if dry_run then
              .ok (.processedO ⟨order.id, total, "processed"⟩ order, st2)
            else
              match decrementAll db order.items st2 with
              | .error e => .error e
              | .ok st3 =>
                let order2 : Order :=
                  { order with status := some "processed", processed_at := some st3.clock }
                let st4 : St := { st3 with clock := st3.clock + 1 }
                if db.save_ok then
                  let st5 : St := { st4 with
                    saved_orders := st4.saved_orders ++ [order2],
                    trace := st4.trace ++ [.saveOrder order2] }
                  let st6 : St :=
                    if notify && db.notify_ok then
                      { st5 with trace := st5.trace ++ [.notifyPost config.webhook_url order.id total] }
                    else st5
                  if db.log_ok then
                    let st7 : St := { st6 with
                      clock := st6.clock + 1,
                      trace := st6.trace ++ [.logWrite config.log_dir order.id total] }
                    .ok (.processedO ⟨order.id, total, "processed"⟩ order2, st7)
                  else .error .ioError
                else .error .dbError

/-- The batch loop over the remaining entries, returning the `results` list,
the `failed` list, the final value of each input entry (the in-place
mutations made visible), and the final state. -/
def processOrdersFrom (config : Config) (db : Db) (notify dry_run : Bool) :
    List (Option Order) → St →
    Except PyErr (List ProcRec × List Failure × List (Option Order) × St)
  | [], st => .ok ([], [], [], st)
  | o :: rest, st =>
    match processOrder config db notify dry_run st o with
    | .error e => .error e
    | .ok (out, st1) =>
      match processOrdersFrom config db notify dry_run rest st1 with
      | .error e => .error e
      | .ok (ps, fs, finals, st2) =>
        match out with
        | .skipped => .ok (ps, fs, o :: finals, st2)
        | .failedO f => .ok (ps, f :: fs, o :: finals, st2)
        | .processedO r ord => .ok (r :: ps, fs, some ord :: finals, st2)

/-- The `summary` dict of the returned value. -/
structure Summary where
  total : Nat
  failed : Nat
deriving Repr, DecidableEq

/-- The dict returned at source line 72. -/
structure BatchResult where
  processed : List ProcRec
  failed : List Failure
  summary : Summary
deriving Repr, DecidableEq

/-- Initial state of a batch run: the database's inventory, clock zero, no
effects, nothing saved. -/
def initSt (db : Db) : St :=
  { inventory := db.inventory, clock := 0, trace := [], saved_orders := [] }

/-- `process_orders(orders, db, config, notify=True, dry_run=False)`
(source lines 6-72).  On success it returns the batch result, the final
value of every input entry, and the final state; an uncaught collaborator
exception is an `Except.error`. -/
def process_orders (orders : List (Option Order)) (db : Db) (config : Config)
    (notify : Bool := true) (dry_run : Bool := false) :
    Except PyErr (BatchResult × List (Option Order) × St) :=
  match processOrdersFrom config db notify dry_run orders (initSt db) with
  | .error e => .error e
  | .ok (results, failed, finals, st) =>
    .ok (⟨results, failed, ⟨results.length, failed.length⟩⟩, finals, st)

/-- The skip condition of source lines 10-13: the entry is `None` or its
status is not `"pending"`. -/
def isSkipped : Option Order → Bool
  | none => true
  | some order => order.status != some "pending"

/-- The `results` entry an outcome contributes, if any. -/
def Outcome.procOf : Outcome → Option ProcRec
  | .processedO r _ => some r
  | _ => none

/-- The `failed` entry an outcome contributes, if any. -/
def Outcome.failOf : Outcome → Option Failure
  | .failedO f => some f
  | _ => none

/-- The value of a batch entry after its iteration: unchanged unless the
iteration ended in a (possibly mutated) processed order. -/
def Outcome.finalOf (o : Option Order) : Outcome → Option Order
  | .processedO _ ord => some ord
  | _ => o

/-- The per-item stock condition of source line 30: the stock row is missing
or holds less than the requested quantity. -/
def insufficientB (inventory : List (String × Int)) (item : OrderItem) : Bool :=
  match lookupRow inventory item.sku with
  | none => true
  | some q => decide (q < item.quantity)

/-- Every effectful collaborator call of the environment succeeds. -/
def AllOk (db : Db) : Prop :=
  (∀ s q, db.decrement_ok s q = true) ∧ db.save_ok = true ∧ db.log_ok = true

/-- Keep the batch result and final state, dropping the per-entry final
orders (whose list length differs when entries are inserted or removed). -/
def resultAndState (x : BatchResult × List (Option Order) × St) : BatchResult × St :=
  (x.1, x.2.2)

/-- Keep the `results` list, `failed` list and final state of a loop run,
dropping the per-entry final orders. -/
def dropFinals (x : List ProcRec × List Failure × List (Option Order) × St) :
    List ProcRec × List Failure × St :=
  (x.1, x.2.1, x.2.2.2)

/-- The processed/failed partition of a run. -/
def partitionOf (x : BatchResult × List (Option Order) × St) :
    List ProcRec × List Failure :=
  (x.1.processed, x.1.failed)

/-- Whether an effect is a commit-stage side effect (as opposed to a read). -/
def Effect.isCommit : Effect → Bool
  | .queryCustomer _ => false
  | .queryInventory _ => false
  | .decrementInventory _ _ => true
  | .saveOrder _ => true
  | .notifyPost _ _ _ => true
  | .logWrite _ _ _ => true

/-- Whether an effect is a delivered notification. -/
def Effect.isNotify : Effect → Bool
  | .notifyPost _ _ _ => true
  | _ => false

/-- Erase delivered notifications from a state's trace. -/
def stripNotify (st : St) : St :=
  { st with trace := st.trace.filter (fun e => !e.isNotify) }

/-- Keep everything about a run except delivered notifications in the trace. -/
def exceptNotify (x : BatchResult × List (Option Order) × St) :
    BatchResult × List (Option Order) × St :=
  (x.1, x.2.1, stripNotify x.2.2)

/-- The SKUs an entry's items mention. -/
def orderSkus : Option Order → List String
  | none => []
  | some order => order.items.map (fun i => i.sku)

/-- Concrete configuration used for evaluation: tax 10 percent, free
shipping above 100, flat rate 5 (the worked example of the spec). -/
def cfgW : Config := ⟨1/10, 100, 5, "https://example.com/webhook", "/var/log/orders"⟩

/-- Concrete environment: customer 1 active, customer 2 banned, ten units of
"A" and one unit of "B" in stock, every effectful call succeeding. -/
def dbW : Db :=
  ⟨[(1, ⟨1, "active"⟩), (2, ⟨2, "banned"⟩)], [("A", 10), ("B", 1)],
   fun _ _ => true, true, true, true⟩

/-- Concrete environment whose inventory updates all error. -/
def dbFailW : Db :=
  ⟨[(1, ⟨1, "active"⟩)], [("A", 10)], fun _ _ => false, true, true, true⟩

/-- Two of "A" at 50: subtotal 100, tax 10, shipping 5, total 115. -/
def ordPaid : Order := ⟨100, 1, some "pending", some 115, [⟨"A", 50, 2⟩], none⟩

/-- Two of "A" at 60: subtotal 120, tax 12, free shipping, total 132,
declared 126: a total mismatch. -/
def ordMismatch : Order := ⟨101, 1, some "pending", some 126, [⟨"A", 60, 2⟩], none⟩

/-- An order whose status is not pending. -/
def ordShipped : Order := ⟨102, 1, some "shipped", some 10, [], none⟩

/-- A pending order with no total field. -/
def ordNoTotal : Order := ⟨103, 1, some "pending", none, [], none⟩

/-- First item in stock, second item requesting five of "B" with one left. -/
def ordTwoItems : Order :=
  ⟨104, 1, some "pending", some 115, [⟨"A", 50, 2⟩, ⟨"B", 1, 5⟩], none⟩

/-- A pending order with an empty item list, declaring exactly the flat
shipping rate of `cfgW`. -/
def ordEmpty : Order := ⟨105, 1, some "pending", some 5, [], none⟩

/-- Environment with three units of "A" only. -/
def dbShare : Db :=
  ⟨[(1, ⟨1, "active"⟩)], [("A", 3)], fun _ _ => true, true, true, true⟩

/-- Trivial pricing: no tax, threshold high, free shipping rate zero. -/
def cfgZero : Config := ⟨0, 1000, 0, "https://example.com/webhook", "/var/log/orders"⟩

/-- First of two orders competing for the three units of "A". -/
def ordA : Order := ⟨1, 1, some "pending", some 20, [⟨"A", 10, 2⟩], none⟩

/-- Second of two orders competing for the three units of "A". -/
def ordB : Order := ⟨2, 1, some "pending", some 20, [⟨"A", 10, 2⟩], none⟩

/-- The value of `ordPaid` after a successful non-dry commit at clock 0. -/
def ordPaidDone : Order :=
  { ordPaid with status := some "processed", processed_at := some 0 }

/-- Final state of a non-dry run of `dbW` over `[some ordPaid]`. -/
def stW1 : St :=
  ⟨[("A", 8), ("B", 1)], 2,
   [.queryCustomer 1, .queryInventory "A", .decrementInventory "A" 2,
    .saveOrder ordPaidDone, .notifyPost "https://example.com/webhook" 100 115,
    .logWrite "/var/log/orders" 100 115],
   [ordPaidDone]⟩

/-- Final state of a non-dry run of `dbW` over
`[none, some ordPaid, some ordMismatch]`. -/
def stW3 : St :=
  ⟨[("A", 8), ("B", 1)], 2,
   [.queryCustomer 1, .queryInventory "A", .decrementInventory "A" 2,
    .saveOrder ordPaidDone, .notifyPost "https://example.com/webhook" 100 115,
    .logWrite "/var/log/orders" 100 115, .queryCustomer 1, .queryInventory "A"],
   [ordPaidDone]⟩

/-- No SKU occurs in the items of two different entries of the batch. -/
def DisjointSkus (orders : List (Option Order)) : Prop :=
  orders.Pairwise (fun a b => ∀ s, s ∈ orderSkus a → s ∉ orderSkus b)

/-- Two iteration results agree up to delivered notifications: same error,
or same outcome with states equal after erasing notifications. -/
def stripRel : Except PyErr (Outcome × St) → Except PyErr (Outcome × St) → Prop
  | .error e₁, .error e₂ => e₁ = e₂
  | .ok (out₁, st₁), .ok (out₂, st₂) => out₁ = out₂ ∧ stripNotify st₁ = stripNotify st₂
  | _, _ => False

/-- Two inventory-update results agree up to delivered notifications. -/
def stripRelSt : Except PyErr St → Except PyErr St → Prop
  | .error e₁, .error e₂ => e₁ = e₂
  | .ok st₁, .ok st₂ => stripNotify st₁ = stripNotify st₂
  | _, _ => False

/-- Two batch-loop results agree up to delivered notifications. -/
def stripRelRun :
    Except PyErr (List ProcRec × List Failure × List (Option Order) × St) →
    Except PyErr (List ProcRec × List Failure × List (Option Order) × St) → Prop
  | .error e₁, .error e₂ => e₁ = e₂
  | .ok (ps₁, fs₁, finals₁, st₁), .ok (ps₂, fs₂, finals₂, st₂) =>
      ps₁ = ps₂ ∧ fs₁ = fs₂ ∧ finals₁ = finals₂ ∧ stripNotify st₁ = stripNotify st₂
  | _, _ => False

lemma processOrder_skip (config : Config) (db : Db) (notify dry_run : Bool) (st : St)
    (o : Option Order) (h : isSkipped o = true) :
    processOrder config db notify dry_run st o = .ok (.skipped, st) := by
  cases o with
  | none => rfl
  | some order =>
    have h2 : order.status ≠ some "pending" := by simpa [isSkipped] using h
    simp [processOrder, h2]

lemma processOrdersFrom_skipped_middle (config : Config) (db : Db) (notify dry_run : Bool)
    (o : Option Order) (suf : List (Option Order)) (h : isSkipped o = true) :
    ∀ (pre : List (Option Order)) (st : St),
      (processOrdersFrom config db notify dry_run (pre ++ o :: suf) st).map dropFinals =
        (processOrdersFrom config db notify dry_run (pre ++ suf) st).map dropFinals := by
  intro pre
  induction pre with
  | nil =>
    intro st
    simp only [List.nil_append, processOrdersFrom,
      processOrder_skip config db notify dry_run st o h]
    cases hA : processOrdersFrom config db notify dry_run suf st with
    | error e => simp [Except.map]
    | ok v =>
      obtain ⟨ps, fs, finals, st2⟩ := v
      simp [Except.map, dropFinals]
  | cons p pre ih =>
    intro st
    simp only [List.cons_append, processOrdersFrom]
    cases hP : processOrder config db notify dry_run st p with
    | error e => simp [Except.map]
    | ok w =>
      obtain ⟨out, st1⟩ := w
      have hih := ih st1
      cases hA : processOrdersFrom config db notify dry_run (pre ++ o :: suf) st1 with
      | error e =>
        cases hB : processOrdersFrom config db notify dry_run (pre ++ suf) st1 with
        | error e2 =>
          rw [hA, hB] at hih
          simp [Except.map] at hih
          subst hih
          cases out <;> simp [Except.map, hA, hB]
        | ok v =>
          rw [hA, hB] at hih
          simp [Except.map] at hih
      | ok v =>
        obtain ⟨ps, fs, finals, st2⟩ := v
        cases hB : processOrdersFrom config db notify dry_run (pre ++ suf) st1 with
        | error e2 =>
          rw [hA, hB] at hih
          simp [Except.map] at hih
        | ok v2 =>
          obtain ⟨ps2, fs2, finals2, st22⟩ := v2
          rw [hA, hB] at hih
          simp only [Except.map, dropFinals, Except.ok.injEq, Prod.mk.injEq] at hih
          obtain ⟨hps, hfs, hst⟩ := hih
          subst hps; subst hfs; subst hst
          cases out <;> simp [Except.map, dropFinals, hA, hB]

/-- Claim C6: an entry that is `None` or whose status is not `"pending"` is
skipped entirely: the iteration returns the state untouched (no validation,
no effect), and removing the entry from the batch leaves the batch result
and final state unchanged (the entry appears in neither list and is not
counted). -/
theorem claim_C6 (config : Config) (db : Db) (notify dry_run : Bool)
    (pre suf : List (Option Order)) (o : Option Order) (h : isSkipped o = true) :
    (∀ st, processOrder config db notify dry_run st o = .ok (.skipped, st)) ∧
    (process_orders (pre ++ o :: suf) db config notify dry_run).map resultAndState =
      (process_orders (pre ++ suf) db config notify dry_run).map resultAndState := by
  refine ⟨fun st => processOrder_skip config db notify dry_run st o h, ?_⟩
  have hmid := processOrdersFrom_skipped_middle config db notify dry_run o suf h pre (initSt db)
  unfold process_orders
  cases hA : processOrdersFrom config db notify dry_run (pre ++ o :: suf) (initSt db) with
  | error e =>
    cases hB : processOrdersFrom config db notify dry_run (pre ++ suf) (initSt db) with
    | error e2 =>
      rw [hA, hB] at hmid
      simp [Except.map] at hmid
      subst hmid
      simp [Except.map]
    | ok v =>
      rw [hA, hB] at hmid
      simp [Except.map] at hmid
  | ok v =>
    obtain ⟨ps, fs, finals, st2⟩ := v
    cases hB : processOrdersFrom config db notify dry_run (pre ++ suf) (initSt db) with
    | error e2 =>
      rw [hA, hB] at hmid
      simp [Except.map] at hmid
    | ok v2 =>
      obtain ⟨ps2, fs2, finals2, st22⟩ := v2
      rw [hA, hB] at hmid
      simp only [Except.map, dropFinals, Except.ok.injEq, Prod.mk.injEq] at hmid
      obtain ⟨hps, hfs, hst⟩ := hmid
      subst hps; subst hfs; subst hst
      simp [Except.map, resultAndState]

/-- Witness for C6 at a concrete input: an order with status `"shipped"` is
skipped and contributes nothing to the batch. -/
theorem claim_C6_witness :
    (∀ st, processOrder cfgW dbW true false st (some ordShipped) = .ok (.skipped, st)) ∧
    (process_orders ([] ++ some ordShipped :: [some ordPaid]) dbW cfgW true false).map
        resultAndState =
      (process_orders ([] ++ [some ordPaid]) dbW cfgW true false).map resultAndState :=
  claim_C6 cfgW dbW true false [] [some ordPaid] (some ordShipped) rfl

/-- Claim C9: a non-skipped order with no total field is treated as
declaring 0 and fails the total sanity check with reason `"invalid total"`,
exactly like an order whose declared total is zero or negative; the state is
untouched. -/
theorem claim_C9 (config : Config) (db : Db) (notify dry_run : Bool) (st : St) (order : Order)
    (hpend : order.status = some "pending")
    (h : order.total = none ∨ ∃ t, order.total = some t ∧ t ≤ 0) :
    processOrder config db notify dry_run st (some order) =
      .ok (.failedO ⟨order, "invalid total"⟩, st) := by
  have htot : order.total.getD 0 ≤ 0 := by
    rcases h with h | ⟨t, ht, hle⟩
    · simp [h]
    · simpa [ht] using hle
  simp [processOrder, hpend, htot]

/-- Witness for C9 at a concrete input: a pending order with no total field
fails with reason `"invalid total"`. -/
theorem claim_C9_witness :
    processOrder cfgW dbW true false (initSt dbW) (some ordNoTotal) =
      .ok (.failedO ⟨ordNoTotal, "invalid total"⟩, initSt dbW) :=
  claim_C9 cfgW dbW true false (initSt dbW) ordNoTotal rfl (Or.inl rfl)

lemma processOrder_ok_spec (config : Config) (db : Db) (notify dry_run : Bool)
    (st : St) (o : Option Order) (out : Outcome) (st' : St)
    (h : processOrder config db notify dry_run st o = .ok (out, st')) :
    (out = .skipped ↔ isSkipped o = true) ∧
    (out = .skipped → st' = st) ∧
    (∀ f, out = .failedO f → ∃ ord, o = some ord ∧ f.order = ord ∧
       st'.inventory = st.inventory ∧ st'.saved_orders = st.saved_orders ∧
       st'.clock = st.clock) ∧
    (∀ r ord2, out = .processedO r ord2 → ∃ ord, o = some ord ∧
       r.order_id = ord.id ∧ r.status = "processed" ∧
       r.total = subtotalOf ord.items + subtotalOf ord.items * config.tax_rate +
         (if subtotalOf ord.items > config.free_shipping_threshold then 0
          else config.shipping_rate) ∧
       |r.total - ord.total.getD 0| ≤ 1/100 ∧
       (dry_run = true → ord2 = ord ∧ st'.inventory = st.inventory ∧
         st'.saved_orders = st.saved_orders) ∧
       (dry_run = false → ∃ ts,
         ord2 = { ord with status := some "processed", processed_at := some ts })) := by
  cases o with
  | none =>
    simp only [processOrder, Except.ok.injEq, Prod.mk.injEq] at h
    obtain ⟨hout, hst⟩ := h
    subst hout; subst hst
    refine ⟨by simp [isSkipped], fun _ => rfl, ?_, ?_⟩
    · intro f hf; simp at hf
    · intro r ord2 hf; simp at hf
  | some order =>
    simp only [processOrder] at h
    by_cases h1 : order.status = some "pending"
    case neg =>
      rw [if_pos h1] at h
      simp only [Except.ok.injEq, Prod.mk.injEq] at h
      obtain ⟨hout, hst⟩ := h
      subst hout; subst hst
      refine ⟨by simp [isSkipped, h1], fun _ => rfl, ?_, ?_⟩
      · intro f hf; simp at hf
      · intro r ord2 hf; simp at hf
    case pos =>
      rw [if_neg (not_not_intro h1)] at h
      have hskip : isSkipped (some order) = false := by simp [isSkipped, h1]
      by_cases h2 : order.total.getD 0 ≤ 0
      · rw [if_pos h2] at h
        simp only [Except.ok.injEq, Prod.mk.injEq] at h
        obtain ⟨hout, hst⟩ := h
        subst hout; subst hst
        refine ⟨by simp [hskip], fun hc => absurd hc (by simp), ?_, ?_⟩
        · intro f hf
          injection hf with hfe
          subst hfe
          exact ⟨order, rfl, rfl, rfl, rfl, rfl⟩
        · intro r ord2 hf; simp at hf
      · rw [if_neg h2] at h
        cases h3 : lookupRow db.customers order.customer_id with
        | none =>
          simp only [h3, Except.ok.injEq, Prod.mk.injEq] at h
          obtain ⟨hout, hst⟩ := h
          subst hout; subst hst
          refine ⟨by simp [hskip], fun hc => absurd hc (by simp), ?_, ?_⟩
          · intro f hf
            injection hf with hfe
            subst hfe
            exact ⟨order, rfl, rfl, rfl, rfl, rfl⟩
          · intro r ord2 hf; simp at hf
        | some customer =>
          simp only [h3] at h
          by_cases h4 : customer.status = "banned"
          · rw [if_pos h4] at h
            simp only [Except.ok.injEq, Prod.mk.injEq] at h
            obtain ⟨hout, hst⟩ := h
            subst hout; subst hst
            refine ⟨by simp [hskip], fun hc => absurd hc (by simp), ?_, ?_⟩
            · intro f hf
              injection hf with hfe
              subst hfe
              exact ⟨order, rfl, rfl, rfl, rfl, rfl⟩
            · intro r ord2 hf; simp at hf
          · rw [if_neg h4] at h
            cases h5 : (stockCheck st.inventory order.items).2 with
            | some sku =>
              simp only [h5, Except.ok.injEq, Prod.mk.injEq] at h
              obtain ⟨hout, hst⟩ := h
              subst hout; subst hst
              refine ⟨by simp [hskip], fun hc => absurd hc (by simp), ?_, ?_⟩
              · intro f hf
                injection hf with hfe
                subst hfe
                exact ⟨order, rfl, rfl, rfl, rfl, rfl⟩
              · intro r ord2 hf; simp at hf
            | none =>
              simp only [h5] at h
              by_cases hm : |subtotalOf order.items +
                  subtotalOf order.items * config.tax_rate +
                  (if subtotalOf order.items > config.free_shipping_threshold then 0
                   else config.shipping_rate) - order.total.getD 0| > 1/100
              · simp only [if_pos hm] at h
                simp only [Except.ok.injEq, Prod.mk.injEq] at h
                obtain ⟨hout, hst⟩ := h
                subst hout; subst hst
                refine ⟨by simp [hskip], fun hc => absurd hc (by simp), ?_, ?_⟩
                · intro f hf
                  injection hf with hfe
                  subst hfe
                  exact ⟨order, rfl, rfl, rfl, rfl, rfl⟩
                · intro r ord2 hf; simp at hf
              · simp only [if_neg hm] at h
                cases dry_run with
                | true =>
                  rw [if_pos rfl] at h
                  simp only [Except.ok.injEq, Prod.mk.injEq] at h
                  obtain ⟨hout, hst⟩ := h
                  subst hout; subst hst
                  refine ⟨by simp [hskip], fun hc => absurd hc (by simp), ?_, ?_⟩
                  · intro f hf; simp at hf
                  · intro r ord2 hf
                    injection hf with hr ho
                    subst hr; subst ho
                    exact ⟨order, rfl, rfl, rfl, rfl, not_lt.mp hm,
                      fun _ => ⟨rfl, rfl, rfl⟩, fun hc => absurd hc (by simp)⟩
                | false =>
                  rw [if_neg Bool.false_ne_true] at h
                  split at h
                  next e heq => simp at h
                  next st3 heq =>
                    by_cases h7 : db.save_ok = true
                    · rw [if_pos h7] at h
                      by_cases h8 : db.log_ok = true
                      · rw [if_pos h8] at h
                        simp only [Except.ok.injEq, Prod.mk.injEq] at h
                        obtain ⟨hout, hst⟩ := h
                        subst hout; subst hst
                        refine ⟨by simp [hskip], fun hc => absurd hc (by simp), ?_, ?_⟩
                        · intro f hf; simp at hf
                        · intro r ord2 hf
                          injection hf with hr ho
                          subst hr; subst ho
                          exact ⟨order, rfl, rfl, rfl, rfl, not_lt.mp hm,
                            fun hc => absurd hc (by simp),
                            fun _ => ⟨st3.clock, rfl⟩⟩
                      · rw [if_neg h8] at h
                        simp at h
                    · rw [if_neg h7] at h
                      simp at h

lemma processOrder_failed_reason (config : Config) (db : Db) (notify dry_run : Bool)
    (st : St) (o : Option Order) (f : Failure) (st' : St)
    (h : processOrder config db notify dry_run st o = .ok (.failedO f, st')) :
    ∃ ord, o = some ord ∧ f.order = ord ∧
      ((f.reason = "invalid total" ∧ ord.total.getD 0 ≤ 0) ∨
       (f.reason = "customer not found" ∧ lookupRow db.customers ord.customer_id = none) ∨
       (∃ c, f.reason = "customer banned" ∧
         lookupRow db.customers ord.customer_id = some c ∧ c.status = "banned") ∨
       (∃ sku, f.reason = "insufficient stock for " ++ sku ∧
         (stockCheck st.inventory ord.items).2 = some sku) ∨
       (f.reason = "total mismatch" ∧
         |subtotalOf ord.items + subtotalOf ord.items * config.tax_rate +
           (if subtotalOf ord.items > config.free_shipping_threshold then 0
            else config.shipping_rate) - ord.total.getD 0| > 1/100)) := by
  cases o with
  | none => simp [processOrder] at h
  | some order =>
    simp only [processOrder] at h
    by_cases h1 : order.status = some "pending"
    case neg =>
      rw [if_pos h1] at h
      simp at h
    case pos =>
      rw [if_neg (not_not_intro h1)] at h
      by_cases h2 : order.total.getD 0 ≤ 0
      · rw [if_pos h2] at h
        simp only [Except.ok.injEq, Prod.mk.injEq] at h
        obtain ⟨hout, hst⟩ := h
        injection hout.symm with hfe
        subst hfe
        exact ⟨order, rfl, rfl, Or.inl ⟨rfl, h2⟩⟩
      · rw [if_neg h2] at h
        cases h3 : lookupRow db.customers order.customer_id with
        | none =>
          simp only [h3, Except.ok.injEq, Prod.mk.injEq] at h
          obtain ⟨hout, hst⟩ := h
          injection hout.symm with hfe
          subst hfe
          exact ⟨order, rfl, rfl, Or.inr (Or.inl ⟨rfl, h3⟩)⟩
        | some customer =>
          simp only [h3] at h
          by_cases h4 : customer.status = "banned"
          · rw [if_pos h4] at h
            simp only [Except.ok.injEq, Prod.mk.injEq] at h
            obtain ⟨hout, hst⟩ := h
            injection hout.symm with hfe
            subst hfe
            exact ⟨order, rfl, rfl, Or.inr (Or.inr (Or.inl ⟨customer, rfl, h3, h4⟩))⟩
          · rw [if_neg h4] at h
            cases h5 : (stockCheck st.inventory order.items).2 with
            | some sku =>
              simp only [h5, Except.ok.injEq, Prod.mk.injEq] at h
              obtain ⟨hout, hst⟩ := h
              injection hout.symm with hfe
              subst hfe
              exact ⟨order, rfl, rfl, Or.inr (Or.inr (Or.inr (Or.inl ⟨sku, rfl, h5⟩)))⟩
            | none =>
              simp only [h5] at h
              by_cases hm : |subtotalOf order.items +
                  subtotalOf order.items * config.tax_rate +
                  (if subtotalOf order.items > config.free_shipping_threshold then 0
                   else config.shipping_rate) - order.total.getD 0| > 1/100
              · simp only [if_pos hm] at h
                simp only [Except.ok.injEq, Prod.mk.injEq] at h
                obtain ⟨hout, hst⟩ := h
                injection hout.symm with hfe
                subst hfe
                exact ⟨order, rfl, rfl, Or.inr (Or.inr (Or.inr (Or.inr ⟨rfl, hm⟩)))⟩
              · simp only [if_neg hm] at h
                cases dry_run with
                | true =>
                  rw [if_pos rfl] at h
                  simp at h
                | false =>
                  rw [if_neg Bool.false_ne_true] at h
                  split at h
                  next e heq => simp at h
                  next st3 heq =>
                    by_cases h7 : db.save_ok = true
                    · rw [if_pos h7] at h
                      by_cases h8 : db.log_ok = true
                      · rw [if_pos h8] at h
                        simp at h
                      · rw [if_neg h8] at h
                        simp at h
                    · rw [if_neg h7] at h
                      simp at h

lemma processOrder_mismatch (config : Config) (db : Db) (notify dry_run : Bool)
    (st : St) (order : Order) (customer : Customer)
    (hpend : order.status = some "pending")
    (htot : ¬order.total.getD 0 ≤ 0)
    (hcust : lookupRow db.customers order.customer_id = some customer)
    (hban : ¬customer.status = "banned")
    (hstock : (stockCheck st.inventory order.items).2 = none)
    (hm : |subtotalOf order.items + subtotalOf order.items * config.tax_rate +
      (if subtotalOf order.items > config.free_shipping_threshold then 0
       else config.shipping_rate) - order.total.getD 0| > 1/100) :
    processOrder config db notify dry_run st (some order) =
      .ok (.failedO ⟨order, "total mismatch"⟩,
        { st with trace := (st.trace ++ [.queryCustomer order.customer_id]) ++
            (stockCheck st.inventory order.items).1.map Effect.queryInventory }) := by
  simp only [processOrder]
  rw [if_neg (not_not_intro hpend)]
  rw [if_neg htot]
  simp only [hcust]
  rw [if_neg hban]
  simp only [hstock]
  rw [if_pos hm]

/-- Claim C1: for every order that reaches the pricing stage (pending,
positive declared total, customer found and not banned, every item in
stock), the computed total is `subtotal + subtotal * tax_rate + shipping`
with `subtotal` the sum of price times quantity, shipping `0` exactly when
the subtotal strictly exceeds the threshold, and the iteration ends in a
`"total mismatch"` failure exactly when that total differs from the declared
total by more than `1/100`; consequently every processed record's total is
the computed total, within `1/100` of the declared total. -/
theorem claim_C1 (config : Config) (db : Db) (notify dry_run : Bool) (st : St)
    (order : Order) (customer : Customer)
    (hpend : order.status = some "pending")
    (htot : 0 < order.total.getD 0)
    (hcust : lookupRow db.customers order.customer_id = some customer)
    (hban : customer.status ≠ "banned")
    (hstock : (stockCheck st.inventory order.items).2 = none) :
    ((∃ st', processOrder config db notify dry_run st (some order) =
        .ok (.failedO ⟨order, "total mismatch"⟩, st')) ↔
      |subtotalOf order.items + subtotalOf order.items * config.tax_rate +
        (if subtotalOf order.items > config.free_shipping_threshold then 0
         else config.shipping_rate) - order.total.getD 0| > 1/100) ∧
    (∀ r ord2 st', processOrder config db notify dry_run st (some order) =
        .ok (.processedO r ord2, st') →
      r.total = subtotalOf order.items + subtotalOf order.items * config.tax_rate +
        (if subtotalOf order.items > config.free_shipping_threshold then 0
         else config.shipping_rate) ∧
      |r.total - order.total.getD 0| ≤ 1/100) := by
  have htot' : ¬order.total.getD 0 ≤ 0 := not_le.mpr htot
  constructor
  · constructor
    · rintro ⟨st', hEq⟩
      obtain ⟨ord, hord, hforder, hreason⟩ :=
        processOrder_failed_reason config db notify dry_run st (some order)
          ⟨order, "total mismatch"⟩ st' hEq
      injection hord with hord'
      subst hord'
      rcases hreason with ⟨hr, hc⟩ | ⟨hr, hc⟩ | ⟨c, hr, hc, hcb⟩ | ⟨sku, hr, hc⟩ | ⟨hr, hc⟩
      · exact absurd hc htot'
      · rw [hcust] at hc; cases hc
      · rw [hcust] at hc
        injection hc with hc'
        subst hc'
        exact absurd hcb hban
      · rw [hstock] at hc; cases hc
      · exact hc
    · intro hm
      exact ⟨_, processOrder_mismatch config db notify dry_run st order customer
        hpend htot' hcust hban hstock hm⟩
  · intro r ord2 st' hEq
    obtain ⟨-, -, -, hproc⟩ :=
      processOrder_ok_spec config db notify dry_run st (some order) _ st' hEq
    obtain ⟨ord, hord, -, -, htotal, htol, -, -⟩ := hproc r ord2 rfl
    injection hord with hord'
    subst hord'
    exact ⟨htotal, htol⟩

/-- Witness for C1 at the spec's worked mismatch example: subtotal 120,
tax 12, free shipping, computed total 132 against declared 126 — the order
fails with `"total mismatch"`, and no processed record can arise. -/
theorem claim_C1_witness :
    ((∃ st', processOrder cfgW dbW true false (initSt dbW) (some ordMismatch) =
        .ok (.failedO ⟨ordMismatch, "total mismatch"⟩, st')) ↔
      |subtotalOf ordMismatch.items + subtotalOf ordMismatch.items * cfgW.tax_rate +
        (if subtotalOf ordMismatch.items > cfgW.free_shipping_threshold then 0
         else cfgW.shipping_rate) - ordMismatch.total.getD 0| > 1/100) ∧
    (∀ r ord2 st', processOrder cfgW dbW true false (initSt dbW) (some ordMismatch) =
        .ok (.processedO r ord2, st') →
      r.total = subtotalOf ordMismatch.items + subtotalOf ordMismatch.items * cfgW.tax_rate +
        (if subtotalOf ordMismatch.items > cfgW.free_shipping_threshold then 0
         else cfgW.shipping_rate) ∧
      |r.total - ordMismatch.total.getD 0| ≤ 1/100) :=
  claim_C1 cfgW dbW true false (initSt dbW) ordMismatch ⟨1, "active"⟩
    rfl (by norm_num [ordMismatch]) rfl (by decide) rfl

lemma stockCheck_first_bad (inv : List (String × Int)) :
    ∀ (items : List OrderItem) (j : Nat) (hj : j < items.length),
      insufficientB inv (items.get ⟨j, hj⟩) = true →
      (∀ k (hk : k < j), insufficientB inv (items.get ⟨k, lt_trans hk hj⟩) = false) →
      stockCheck inv items =
        ((items.take (j+1)).map (fun i => i.sku), some (items.get ⟨j, hj⟩).sku) := by
  intro items
  induction items with
  | nil => intro j hj _ _; exact absurd hj (by simp)
  | cons item rest ih =>
    intro j hj hbad hgood
    cases j with
    | zero =>
      simp only [List.get] at hbad
      unfold insufficientB at hbad
      cases hl : lookupRow inv item.sku with
      | none => simp [stockCheck, hl]
      | some q =>
        rw [hl] at hbad
        simp only [decide_eq_true_eq] at hbad
        simp [stockCheck, hl, hbad]
    | succ j =>
      have h0 : insufficientB inv item = false := by
        simpa using hgood 0 (Nat.succ_pos j)
      unfold insufficientB at h0
      cases hl : lookupRow inv item.sku with
      | none => rw [hl] at h0; cases h0
      | some q =>
        rw [hl] at h0
        simp only [decide_eq_false_iff_not] at h0
        have hj' : j < rest.length := by simpa using hj
        have hbad' : insufficientB inv (rest.get ⟨j, hj'⟩) = true := by
          simpa using hbad
        have hgood' : ∀ k (hk : k < j),
            insufficientB inv (rest.get ⟨k, lt_trans hk hj'⟩) = false := by
          intro k hk
          simpa using hgood (k+1) (Nat.succ_lt_succ hk)
        simp [stockCheck, hl, h0, ih j hj' hbad' hgood']

/-- Claim C3: for every order whose item list has a first item (in listed
order) with missing stock or insufficient quantity, the iteration fails with
`"insufficient stock for "` followed by that item's SKU, queries exactly the
items up to and including that one (the loop short-circuits), and changes
nothing but the trace — in particular no inventory is decremented for any
item of the order. -/
theorem claim_C3 (config : Config) (db : Db) (notify dry_run : Bool) (st : St)
    (order : Order) (customer : Customer) (j : Nat)
    (hpend : order.status = some "pending")
    (htot : 0 < order.total.getD 0)
    (hcust : lookupRow db.customers order.customer_id = some customer)
    (hban : customer.status ≠ "banned")
    (hj : j < order.items.length)
    (hbad : insufficientB st.inventory (order.items.get ⟨j, hj⟩) = true)
    (hgood : ∀ k (hk : k < j),
      insufficientB st.inventory (order.items.get ⟨k, lt_trans hk hj⟩) = false) :
    processOrder config db notify dry_run st (some order) =
      .ok (.failedO ⟨order,
            "insufficient stock for " ++ (order.items.get ⟨j, hj⟩).sku⟩,
        { st with trace := (st.trace ++ [.queryCustomer order.customer_id]) ++
            ((order.items.take (j+1)).map (fun i => Effect.queryInventory i.sku)) }) := by
  have hsc := stockCheck_first_bad st.inventory order.items j hj hbad hgood
  simp only [processOrder]
  rw [if_neg (not_not_intro hpend)]
  rw [if_neg (not_le.mpr htot)]
  simp only [hcust]
  rw [if_neg hban]
  simp only [hsc, List.map_map, Function.comp_def]

/-- Witness for C3 at a concrete input: an order with two items, the first
("A", two of ten in stock) fine and the second requesting five of "B" with
one in stock, fails with the second SKU after querying exactly both items,
with the inventory untouched. -/
theorem claim_C3_witness :
    processOrder cfgW dbW true false (initSt dbW) (some ordTwoItems) =
      .ok (.failedO ⟨ordTwoItems,
            "insufficient stock for " ++ (ordTwoItems.items.get ⟨1, by decide⟩).sku⟩,
        { initSt dbW with trace :=
            ((initSt dbW).trace ++ [.queryCustomer ordTwoItems.customer_id]) ++
            ((ordTwoItems.items.take 2).map (fun i => Effect.queryInventory i.sku)) }) :=
  claim_C3 cfgW dbW true false (initSt dbW) ordTwoItems ⟨1, "active"⟩ 1
    rfl (by norm_num [ordTwoItems]) rfl (by decide) (by decide) (by decide)
    (fun k hk => by
      have hk0 : k = 0 := Nat.lt_one_iff.mp hk
      subst hk0
      exact (by decide :
        insufficientB (initSt dbW).inventory (ordTwoItems.items.get ⟨0, by decide⟩) = false))

lemma zipWith_getElem? {α β γ : Type} (f : α → β → γ) :
    ∀ (as : List α) (bs : List β) (i : Nat),
      (List.zipWith f as bs)[i]? = (as[i]?).bind (fun a => (bs[i]?).map (f a)) := by
  intro as
  induction as with
  | nil => intro bs i; simp
  | cons a as ih =>
    intro bs i
    cases bs with
    | nil => simp
    | cons b bs =>
      cases i with
      | zero => simp
      | succ i => simpa using ih bs i

lemma processOrdersFrom_spec (config : Config) (db : Db) (notify dry_run : Bool) :
    ∀ (orders : List (Option Order)) (st : St) (ps : List ProcRec) (fs : List Failure)
      (finals : List (Option Order)) (st' : St),
      processOrdersFrom config db notify dry_run orders st = .ok (ps, fs, finals, st') →
      ∃ outs : List Outcome,
        outs.length = orders.length ∧
        ps = outs.filterMap Outcome.procOf ∧
        fs = outs.filterMap Outcome.failOf ∧
        finals = List.zipWith Outcome.finalOf orders outs ∧
        ∀ (i : Nat) (o : Option Order) (out : Outcome),
          orders[i]? = some o → outs[i]? = some out →
          ∃ stIn stOut, processOrder config db notify dry_run stIn o = .ok (out, stOut) := by
  intro orders
  induction orders with
  | nil =>
    intro st ps fs finals st' h
    simp only [processOrdersFrom, Except.ok.injEq, Prod.mk.injEq] at h
    obtain ⟨hps, hfs, hfin, hst⟩ := h
    subst hps; subst hfs; subst hfin; subst hst
    exact ⟨[], rfl, rfl, rfl, by simp, fun i o out ho _ => by simp at ho⟩
  | cons o rest ih =>
    intro st ps fs finals st' h
    simp only [processOrdersFrom] at h
    cases hP : processOrder config db notify dry_run st o with
    | error e => simp only [hP] at h; cases h
    | ok w =>
      obtain ⟨out, st1⟩ := w
      simp only [hP] at h
      cases hR : processOrdersFrom config db notify dry_run rest st1 with
      | error e => simp only [hR] at h; cases h
      | ok v =>
        obtain ⟨ps0, fs0, finals0, st2⟩ := v
        simp only [hR] at h
        obtain ⟨outs, hlen, hps0, hfs0, hfin0, hidx⟩ := ih st1 ps0 fs0 finals0 st2 hR
        cases out with
        | skipped =>
          simp only [Except.ok.injEq, Prod.mk.injEq] at h
          obtain ⟨hps, hfs, hfin, hst⟩ := h
          subst hps; subst hfs; subst hfin; subst hst
          refine ⟨.skipped :: outs, by simpa using hlen, ?_, ?_, ?_, ?_⟩
          · simpa [List.filterMap_cons, Outcome.procOf] using hps0
          · simpa [List.filterMap_cons, Outcome.failOf] using hfs0
          · simpa [List.zipWith, Outcome.finalOf] using hfin0
          · intro i o' out' ho' hout'
            cases i with
            | zero =>
              simp only [List.getElem?_cons_zero, Option.some.injEq] at ho' hout'
              subst ho'; subst hout'
              exact ⟨st, st1, hP⟩
            | succ i =>
              simp only [List.getElem?_cons_succ] at ho' hout'
              exact hidx i o' out' ho' hout'
        | failedO f =>
          simp only [Except.ok.injEq, Prod.mk.injEq] at h
          obtain ⟨hps, hfs, hfin, hst⟩ := h
          subst hps; subst hfs; subst hfin; subst hst
          refine ⟨.failedO f :: outs, by simpa using hlen, ?_, ?_, ?_, ?_⟩
          · simpa [List.filterMap_cons, Outcome.procOf] using hps0
          · simpa [List.filterMap_cons, Outcome.failOf] using hfs0
          · simpa [List.zipWith, Outcome.finalOf] using hfin0
          · intro i o' out' ho' hout'
            cases i with
            | zero =>
              simp only [List.getElem?_cons_zero, Option.some.injEq] at ho' hout'
              subst ho'; subst hout'
              exact ⟨st, st1, hP⟩
            | succ i =>
              simp only [List.getElem?_cons_succ] at ho' hout'
              exact hidx i o' out' ho' hout'
        | processedO r ord =>
          simp only [Except.ok.injEq, Prod.mk.injEq] at h
          obtain ⟨hps, hfs, hfin, hst⟩ := h
          subst hps; subst hfs; subst hfin; subst hst
          refine ⟨.processedO r ord :: outs, by simpa using hlen, ?_, ?_, ?_, ?_⟩
          · simpa [List.filterMap_cons, Outcome.procOf] using hps0
          · simpa [List.filterMap_cons, Outcome.failOf] using hfs0
          · simpa [List.zipWith, Outcome.finalOf] using hfin0
          · intro i o' out' ho' hout'
            cases i with
            | zero =>
              simp only [List.getElem?_cons_zero, Option.some.injEq] at ho' hout'
              subst ho'; subst hout'
              exact ⟨st, st1, hP⟩
            | succ i =>
              simp only [List.getElem?_cons_succ] at ho' hout'
              exact hidx i o' out' ho' hout'

lemma process_orders_inner (orders : List (Option Order)) (db : Db) (config : Config)
    (notify dry_run : Bool) (br : BatchResult) (finals : List (Option Order)) (st' : St)
    (h : process_orders orders db config notify dry_run = .ok (br, finals, st')) :
    ∃ ps fs, processOrdersFrom config db notify dry_run orders (initSt db) =
        .ok (ps, fs, finals, st') ∧
      br = ⟨ps, fs, ⟨ps.length, fs.length⟩⟩ := by
  unfold process_orders at h
  cases hF : processOrdersFrom config db notify dry_run orders (initSt db) with
  | error e => simp only [hF] at h; cases h
  | ok v =>
    obtain ⟨ps, fs, fin, st2⟩ := v
    simp only [hF, Except.ok.injEq, Prod.mk.injEq] at h
    obtain ⟨hbr, hfin, hst⟩ := h
    subst hfin; subst hst
    exact ⟨ps, fs, rfl, hbr.symm⟩

/-- Claim C2: whenever the batch call returns a result, the summary counts
are the lengths of the two lists, and the two lists are the in-order
projections of one per-entry outcome sequence: each entry is skipped exactly
when the skip filter says so, and a non-skipped entry contributes exactly
one record — either a failure carrying that very order or a processed record
carrying its identifier — so each list preserves input order and no entry is
counted twice. -/
theorem claim_C2 (orders : List (Option Order)) (db : Db) (config : Config)
    (notify dry_run : Bool) (br : BatchResult) (finals : List (Option Order)) (st' : St)
    (h : process_orders orders db config notify dry_run = .ok (br, finals, st')) :
    br.summary.total = br.processed.length ∧
    br.summary.failed = br.failed.length ∧
    ∃ outs : List Outcome,
      outs.length = orders.length ∧
      br.processed = outs.filterMap Outcome.procOf ∧
      br.failed = outs.filterMap Outcome.failOf ∧
      ∀ (i : Nat) (o : Option Order) (out : Outcome),
        orders[i]? = some o → outs[i]? = some out →
        ((out = .skipped ↔ isSkipped o = true) ∧
         (∀ f, out = .failedO f → ∃ ord, o = some ord ∧ f.order = ord) ∧
         (∀ r ord2, out = .processedO r ord2 →
           ∃ ord, o = some ord ∧ r.order_id = ord.id ∧ r.status = "processed")) := by
  obtain ⟨ps, fs, hF, hbr⟩ :=
    process_orders_inner orders db config notify dry_run br finals st' h
  subst hbr
  obtain ⟨outs, hlen, hps, hfs, -, hidx⟩ :=
    processOrdersFrom_spec config db notify dry_run orders (initSt db) ps fs finals st' hF
  refine ⟨rfl, rfl, outs, hlen, hps, hfs, ?_⟩
  intro i o out ho hout
  obtain ⟨stIn, stOut, hEq⟩ := hidx i o out ho hout
  obtain ⟨hskip, -, hfail, hproc⟩ :=
    processOrder_ok_spec config db notify dry_run stIn o out stOut hEq
  refine ⟨hskip, ?_, ?_⟩
  · intro f hf
    obtain ⟨ord, ho', hford, -, -, -⟩ := hfail f hf
    exact ⟨ord, ho', hford⟩
  · intro r ord2 hr
    obtain ⟨ord, ho', hid, hstat, -, -, -, -⟩ := hproc r ord2 hr
    exact ⟨ord, ho', hid, hstat⟩

/-- Witness for C2 at a concrete input: a batch of a missing entry, a
processed order and a mismatching order partitions into one processed and
one failed record with matching summary counts. -/
theorem claim_C2_witness :
    ∃ (br : BatchResult) (finals : List (Option Order)) (st' : St),
      process_orders [none, some ordPaid, some ordMismatch] dbW cfgW true false =
        .ok (br, finals, st') ∧
      br.summary.total = br.processed.length ∧
      br.summary.failed = br.failed.length ∧
      ∃ outs : List Outcome,
        outs.length = ([none, some ordPaid, some ordMismatch] : List (Option Order)).length ∧
        br.processed = outs.filterMap Outcome.procOf ∧
        br.failed = outs.filterMap Outcome.failOf ∧
        ∀ (i : Nat) (o : Option Order) (out : Outcome),
          ([none, some ordPaid, some ordMismatch] : List (Option Order))[i]? = some o →
          outs[i]? = some out →
          ((out = .skipped ↔ isSkipped o = true) ∧
           (∀ f, out = .failedO f → ∃ ord, o = some ord ∧ f.order = ord) ∧
           (∀ r ord2, out = .processedO r ord2 →
             ∃ ord, o = some ord ∧ r.order_id = ord.id ∧ r.status = "processed")) := by
  have hrun : process_orders [none, some ordPaid, some ordMismatch] dbW cfgW =
      .ok (⟨[⟨100, 115, "processed"⟩], [⟨ordMismatch, "total mismatch"⟩], ⟨1, 1⟩⟩,
        [none, some ordPaidDone, some ordMismatch], stW3) := by
    norm_num [process_orders, processOrdersFrom, processOrder, initSt, ordPaid, ordPaidDone,
      ordMismatch, dbW, cfgW, stW3, lookupRow, stockCheck, insufficientB, decrementAll,
      updateDecrement, subtotalOf, show ("active" : String) ≠ "banned" from by decide,
      show ("B" : String) ≠ "A" from by decide]
  exact ⟨_, _, _, hrun,
    claim_C2 [none, some ordPaid, some ordMismatch] dbW cfgW true false _ _ _ hrun⟩

/-- Claim C8: whenever the batch call returns a result, every input entry is
returned unchanged unless it was successfully processed in a non-dry run, in
which case exactly its status and processed-timestamp fields are set and a
processed record with its identifier appears in the result. -/
theorem claim_C8 (orders : List (Option Order)) (db : Db) (config : Config)
    (notify dry_run : Bool) (br : BatchResult) (finals : List (Option Order)) (st' : St)
    (h : process_orders orders db config notify dry_run = .ok (br, finals, st')) :
    finals.length = orders.length ∧
    ∀ (i : Nat) (o fo : Option Order), orders[i]? = some o → finals[i]? = some fo →
      fo = o ∨
      (dry_run = false ∧ ∃ ord ts r,
        o = some ord ∧
        fo = some { ord with status := some "processed", processed_at := some ts } ∧
        r ∈ br.processed ∧ r.order_id = ord.id) := by
  obtain ⟨ps, fs, hF, hbr⟩ :=
    process_orders_inner orders db config notify dry_run br finals st' h
  subst hbr
  obtain ⟨outs, hlen, hps, -, hfin, hidx⟩ :=
    processOrdersFrom_spec config db notify dry_run orders (initSt db) ps fs finals st' hF
  subst hfin
  constructor
  · simp [List.length_zipWith, hlen]
  · intro i o fo ho hfo
    rw [zipWith_getElem? Outcome.finalOf orders outs i, ho] at hfo
    cases hout : outs[i]? with
    | none => rw [hout] at hfo; simp at hfo
    | some out =>
      rw [hout] at hfo
      have hfo' : Outcome.finalOf o out = fo := by simpa using hfo
      subst hfo'
      obtain ⟨stIn, stOut, hEq⟩ := hidx i o out ho hout
      obtain ⟨-, -, -, hproc⟩ :=
        processOrder_ok_spec config db notify dry_run stIn o out stOut hEq
      cases out with
      | skipped => exact Or.inl rfl
      | failedO f => exact Or.inl rfl
      | processedO r ord2 =>
        obtain ⟨ord, ho', hid, -, -, -, hdry, hwet⟩ := hproc r ord2 rfl
        cases dry_run with
        | true =>
          obtain ⟨hord2, -, -⟩ := hdry rfl
          subst hord2
          subst ho'
          exact Or.inl rfl
        | false =>
          obtain ⟨ts, hord2⟩ := hwet rfl
          refine Or.inr ⟨rfl, ord, ts, r, ho', ?_, ?_, hid⟩
          · simp [Outcome.finalOf, hord2]
          · rw [hps]
            exact List.mem_filterMap.mpr
              ⟨.processedO r ord2, List.getElem?_mem hout, rfl⟩

/-- Witness for C8 at a concrete input: after a non-dry run over one
processable order, the returned entry differs from the input only in status
and timestamp. -/
theorem claim_C8_witness :
    ∃ (br : BatchResult) (finals : List (Option Order)) (st' : St),
      process_orders [some ordPaid] dbW cfgW true false = .ok (br, finals, st') ∧
      finals.length = ([some ordPaid] : List (Option Order)).length ∧
      ∀ (i : Nat) (o fo : Option Order),
        ([some ordPaid] : List (Option Order))[i]? = some o → finals[i]? = some fo →
        fo = o ∨
        (false = false ∧ ∃ ord ts r,
          o = some ord ∧
          fo = some { ord with status := some "processed", processed_at := some ts } ∧
          r ∈ br.processed ∧ r.order_id = ord.id) := by
  have hrun : process_orders [some ordPaid] dbW cfgW =
      .ok (⟨[⟨100, 115, "processed"⟩], [], ⟨1, 0⟩⟩, [some ordPaidDone], stW1) := by
    norm_num [process_orders, processOrdersFrom, processOrder, initSt, ordPaid, ordPaidDone,
      dbW, cfgW, stW1, lookupRow, stockCheck, insufficientB, decrementAll, updateDecrement,
      subtotalOf, show ("active" : String) ≠ "banned" from by decide,
      show ("B" : String) ≠ "A" from by decide]
  exact ⟨_, _, _, hrun, claim_C8 [some ordPaid] dbW cfgW true false _ _ _ hrun⟩

lemma decrementAll_ne_error (db : Db) (hdec : ∀ s q, db.decrement_ok s q = true) :
    ∀ (items : List OrderItem) (st : St) (e : PyErr), decrementAll db items st ≠ .error e := by
  intro items
  induction items with
  | nil => intro st e h; cases h
  | cons item rest ih =>
    intro st e h
    rw [decrementAll, if_pos (hdec item.sku item.quantity)] at h
    exact ih _ e h

lemma processOrder_allOk (config : Config) (db : Db) (notify dry_run : Bool)
    (st : St) (o : Option Order) (hok : AllOk db) :
    ∃ out st', processOrder config db notify dry_run st o = .ok (out, st') := by
  obtain ⟨hdec, hsave, hlog⟩ := hok
  cases o with
  | none => exact ⟨.skipped, st, rfl⟩
  | some order =>
    simp only [processOrder]
    by_cases h1 : order.status = some "pending"
    case neg => rw [if_pos h1]; exact ⟨_, _, rfl⟩
    case pos =>
      rw [if_neg (not_not_intro h1)]
      by_cases h2 : order.total.getD 0 ≤ 0
      · rw [if_pos h2]; exact ⟨_, _, rfl⟩
      · rw [if_neg h2]
        cases h3 : lookupRow db.customers order.customer_id with
        | none => simp only [h3]; exact ⟨_, _, rfl⟩
        | some customer =>
          simp only [h3]
          by_cases h4 : customer.status = "banned"
          · rw [if_pos h4]; exact ⟨_, _, rfl⟩
          · rw [if_neg h4]
            cases h5 : (stockCheck st.inventory order.items).2 with
            | some sku => simp only [h5]; exact ⟨_, _, rfl⟩
            | none =>
              simp only [h5]
              by_cases hm : |subtotalOf order.items +
                  subtotalOf order.items * config.tax_rate +
                  (if subtotalOf order.items > config.free_shipping_threshold then 0
                   else config.shipping_rate) - order.total.getD 0| > 1/100
              · simp only [if_pos hm]; exact ⟨_, _, rfl⟩
              · simp only [if_neg hm]
                cases dry_run with
                | true => rw [if_pos rfl]; exact ⟨_, _, rfl⟩
                | false =>
                  rw [if_neg Bool.false_ne_true]
                  split
                  next e heq => exact absurd heq (decrementAll_ne_error db hdec order.items _ e)
                  next st3 heq =>
                    rw [if_pos hsave, if_pos hlog]
                    exact ⟨_, _, rfl⟩

lemma processOrdersFrom_allOk (config : Config) (db : Db) (notify dry_run : Bool)
    (hok : AllOk db) :
    ∀ (orders : List (Option Order)) (st : St), ∃ ps fs finals st',
      processOrdersFrom config db notify dry_run orders st = .ok (ps, fs, finals, st') := by
  intro orders
  induction orders with
  | nil => intro st; exact ⟨[], [], [], st, rfl⟩
  | cons o rest ih =>
    intro st
    obtain ⟨out, st1, hP⟩ := processOrder_allOk config db notify dry_run st o hok
    obtain ⟨ps, fs, finals, st', hR⟩ := ih st1
    cases out with
    | skipped =>
      exact ⟨ps, fs, o :: finals, st', by simp only [processOrdersFrom, hP, hR]⟩
    | failedO f =>
      exact ⟨ps, f :: fs, o :: finals, st', by simp only [processOrdersFrom, hP, hR]⟩
    | processedO r ord =>
      exact ⟨r :: ps, fs, some ord :: finals, st', by simp only [processOrdersFrom, hP, hR]⟩

/-- Claim C4, amended: when no store or log operation errors, the batch
call always returns a batch result (the counterexample shows that a store
error during commit instead propagates out of the call as an exception, so
the erroring order is not recorded failed and no result is returned). -/
theorem claim_C4 (orders : List (Option Order)) (db : Db) (config : Config)
    (notify dry_run : Bool) (hok : AllOk db) :
    ∃ br finals st', process_orders orders db config notify dry_run =
      .ok (br, finals, st') := by
  obtain ⟨ps, fs, finals, st', hF⟩ :=
    processOrdersFrom_allOk config db notify dry_run hok orders (initSt db)
  exact ⟨⟨ps, fs, ⟨ps.length, fs.length⟩⟩, finals, st',
    by unfold process_orders; rw [hF]⟩

/-- Counterexample for C4 as stated: with an environment whose inventory
update errors, a fully valid order makes the whole batch call raise — the
call returns a database error instead of a batch result with that order in
the failed list. -/
theorem claim_C4_counterexample :
    process_orders [some ordPaid] dbFailW cfgW = .error .dbError := by
  norm_num [process_orders, processOrdersFrom, processOrder, initSt, ordPaid, dbFailW,
    cfgW, lookupRow, stockCheck, insufficientB, decrementAll, updateDecrement, subtotalOf,
    show ("active" : String) ≠ "banned" from by decide]

/-- Witness for the amended C4 at a concrete input: with the all-succeeding
environment the batch call returns a result. -/
theorem claim_C4_witness :
    AllOk dbW ∧ ∃ br finals st',
      process_orders [some ordPaid] dbW cfgW true false = .ok (br, finals, st') :=
  ⟨⟨fun _ _ => rfl, rfl, rfl⟩,
   claim_C4 [some ordPaid] dbW cfgW true false ⟨fun _ _ => rfl, rfl, rfl⟩⟩

lemma isNotify_queryCustomer (id : Nat) : Effect.isNotify (.queryCustomer id) = false := rfl

lemma isNotify_queryInventory (sku : String) :
    Effect.isNotify (.queryInventory sku) = false := rfl

lemma isNotify_decrementInventory (sku : String) (q : Int) :
    Effect.isNotify (.decrementInventory sku q) = false := rfl

lemma isNotify_saveOrder (ord : Order) : Effect.isNotify (.saveOrder ord) = false := rfl

lemma isNotify_notifyPost (url : String) (i : Nat) (t : Rat) :
    Effect.isNotify (.notifyPost url i t) = true := rfl

lemma isNotify_logWrite (dir : String) (i : Nat) (t : Rat) :
    Effect.isNotify (.logWrite dir i t) = false := rfl

lemma stripNotify_parts (st₁ st₂ : St) (h : stripNotify st₁ = stripNotify st₂) :
    st₁.inventory = st₂.inventory ∧ st₁.clock = st₂.clock ∧
    st₁.saved_orders = st₂.saved_orders ∧
    st₁.trace.filter (fun e => !e.isNotify) = st₂.trace.filter (fun e => !e.isNotify) := by
  have h1 := congrArg St.inventory h
  have h2 := congrArg St.clock h
  have h3 := congrArg St.saved_orders h
  have h4 := congrArg St.trace h
  simp only [stripNotify] at h1 h2 h3 h4
  exact ⟨h1, h2, h3, h4⟩

lemma decrementAll_stripRel (db₁ db₂ : Db) (hd : db₁.decrement_ok = db₂.decrement_ok) :
    ∀ (items : List OrderItem) (st₁ st₂ : St), stripNotify st₁ = stripNotify st₂ →
      stripRelSt (decrementAll db₁ items st₁) (decrementAll db₂ items st₂) := by
  intro items
  induction items with
  | nil => intro st₁ st₂ hst; exact hst
  | cons item rest ih =>
    intro st₁ st₂ hst
    obtain ⟨hinv, hclock, hsaved, htr⟩ := stripNotify_parts st₁ st₂ hst
    simp only [decrementAll, ← hd]
    by_cases hd1 : db₁.decrement_ok item.sku item.quantity = true
    · rw [if_pos hd1, if_pos hd1]
      apply ih
      simp [stripNotify, List.filter_append, isNotify_decrementInventory,
        hinv, hclock, hsaved, htr]
    · rw [if_neg hd1, if_neg hd1]
      exact rfl

lemma processOrder_stripRel (config : Config) (db₁ db₂ : Db)
    (hc : db₁.customers = db₂.customers) (hd : db₁.decrement_ok = db₂.decrement_ok)
    (hs : db₁.save_ok = db₂.save_ok) (hl : db₁.log_ok = db₂.log_ok)
    (notify dry_run : Bool) (st₁ st₂ : St) (o : Option Order)
    (hst : stripNotify st₁ = stripNotify st₂) :
    stripRel (processOrder config db₁ notify dry_run st₁ o)
      (processOrder config db₂ notify dry_run st₂ o) := by
  obtain ⟨hinv, hclock, hsaved, htr⟩ := stripNotify_parts st₁ st₂ hst
  cases o with
  | none => exact ⟨rfl, hst⟩
  | some order =>
    have hsc2 : stockCheck st₂.inventory order.items =
        stockCheck st₁.inventory order.items := by rw [hinv]
    simp only [processOrder, ← hc, ← hs, ← hl, hsc2]
    by_cases h1 : order.status = some "pending"
    case neg => rw [if_pos h1, if_pos h1]; exact ⟨rfl, hst⟩
    case pos =>
      rw [if_neg (not_not_intro h1), if_neg (not_not_intro h1)]
      by_cases h2 : order.total.getD 0 ≤ 0
      · rw [if_pos h2, if_pos h2]; exact ⟨rfl, hst⟩
      · rw [if_neg h2, if_neg h2]
        cases h3 : lookupRow db₁.customers order.customer_id with
        | none =>
          simp only [h3]
          exact ⟨rfl, by
            simp [stripNotify, List.filter_append, isNotify_queryCustomer, isNotify_queryInventory, hinv, hclock, hsaved, htr]⟩
        | some customer =>
          simp only [h3]
          by_cases h4 : customer.status = "banned"
          · rw [if_pos h4, if_pos h4]
            exact ⟨rfl, by
              simp [stripNotify, List.filter_append, isNotify_queryCustomer, isNotify_queryInventory, hinv, hclock, hsaved, htr]⟩
          · rw [if_neg h4, if_neg h4]
            cases h5 : (stockCheck st₁.inventory order.items).2 with
            | some sku =>
              simp only [h5]
              exact ⟨rfl, by
                simp [stripNotify, List.filter_append, isNotify_queryCustomer, isNotify_queryInventory, hinv, hclock, hsaved, htr]⟩
            | none =>
              simp only [h5]
              by_cases hm : |subtotalOf order.items +
                  subtotalOf order.items * config.tax_rate +
                  (if subtotalOf order.items > config.free_shipping_threshold then 0
                   else config.shipping_rate) - order.total.getD 0| > 1/100
              · simp only [if_pos hm]
                exact ⟨rfl, by
                  simp [stripNotify, List.filter_append, isNotify_queryCustomer, isNotify_queryInventory, hinv, hclock, hsaved, htr]⟩
              · simp only [if_neg hm]
                cases dry_run with
                | true =>
                  rw [if_pos rfl, if_pos rfl]
                  exact ⟨rfl, by
                    simp [stripNotify, List.filter_append, isNotify_queryCustomer, isNotify_queryInventory, hinv, hclock, hsaved, htr]⟩
                | false =>
                  rw [if_neg Bool.false_ne_true, if_neg Bool.false_ne_true]
                  have hst2 : stripNotify
                      { st₁ with trace := st₁.trace ++ [Effect.queryCustomer order.customer_id] ++
                        (stockCheck st₁.inventory order.items).1.map Effect.queryInventory } =
                      stripNotify
                      { st₂ with trace := st₂.trace ++ [Effect.queryCustomer order.customer_id] ++
                        (stockCheck st₁.inventory order.items).1.map Effect.queryInventory } := by
                    simp [stripNotify, List.filter_append, isNotify_queryCustomer, isNotify_queryInventory, hinv, hclock, hsaved, htr]
                  have hrel := decrementAll_stripRel db₁ db₂ hd order.items _ _ hst2
                  cases hD1 : decrementAll db₁ order.items
                      { st₁ with trace := st₁.trace ++ [Effect.queryCustomer order.customer_id] ++
                        (stockCheck st₁.inventory order.items).1.map Effect.queryInventory } with
                  | error e₁ =>
                    cases hD2 : decrementAll db₂ order.items
                        { st₂ with trace := st₂.trace ++ [Effect.queryCustomer order.customer_id] ++
                          (stockCheck st₁.inventory order.items).1.map Effect.queryInventory } with
                    | error e₂ =>
                      rw [hD1, hD2] at hrel
                      have he : e₁ = e₂ := hrel
                      subst he
                      exact rfl
                    | ok st₂3 =>
                      rw [hD1, hD2] at hrel
                      exact absurd hrel (by simp [stripRelSt])
                  | ok st₁3 =>
                    cases hD2 : decrementAll db₂ order.items
                        { st₂ with trace := st₂.trace ++ [Effect.queryCustomer order.customer_id] ++
                          (stockCheck st₁.inventory order.items).1.map Effect.queryInventory } with
                    | error e₂ =>
                      rw [hD1, hD2] at hrel
                      exact absurd hrel (by simp [stripRelSt])
                    | ok st₂3 =>
                      rw [hD1, hD2] at hrel
                      have hst3 : stripNotify st₁3 = stripNotify st₂3 := hrel
                      obtain ⟨hinv3, hclock3, hsaved3, htr3⟩ :=
                        stripNotify_parts st₁3 st₂3 hst3
                      simp only []
                      by_cases h7 : db₁.save_ok = true
                      · rw [if_pos h7, if_pos h7]
                        by_cases h8 : db₁.log_ok = true
                        · rw [if_pos h8, if_pos h8]
                          refine ⟨by rw [hclock3], ?_⟩
                          simp [stripNotify, List.filter_append, isNotify_saveOrder,
                            isNotify_notifyPost, isNotify_logWrite,
                            apply_ite St.trace, apply_ite St.clock, apply_ite St.inventory,
                            apply_ite St.saved_orders, hinv3, hclock3, hsaved3, htr3]
                          by_cases hn : notify = true <;>
                            by_cases b1 : db₁.notify_ok = true <;>
                            by_cases b2 : db₂.notify_ok = true <;>
                            simp [hn, b1, b2, List.filter_append, isNotify_saveOrder,
                              isNotify_notifyPost, htr3]
                        · rw [if_neg h8, if_neg h8]
                          exact rfl
                      · rw [if_neg h7, if_neg h7]
                        exact rfl

lemma processOrdersFrom_stripRel (config : Config) (db₁ db₂ : Db)
    (hc : db₁.customers = db₂.customers) (hd : db₁.decrement_ok = db₂.decrement_ok)
    (hs : db₁.save_ok = db₂.save_ok) (hl : db₁.log_ok = db₂.log_ok)
    (notify dry_run : Bool) :
    ∀ (orders : List (Option Order)) (st₁ st₂ : St), stripNotify st₁ = stripNotify st₂ →
      stripRelRun (processOrdersFrom config db₁ notify dry_run orders st₁)
        (processOrdersFrom config db₂ notify dry_run orders st₂) := by
  intro orders
  induction orders with
  | nil => intro st₁ st₂ hst; exact ⟨rfl, rfl, rfl, hst⟩
  | cons o rest ih =>
    intro st₁ st₂ hst
    have hrel := processOrder_stripRel config db₁ db₂ hc hd hs hl notify dry_run st₁ st₂ o hst
    simp only [processOrdersFrom]
    cases hP1 : processOrder config db₁ notify dry_run st₁ o with
    | error e₁ =>
      cases hP2 : processOrder config db₂ notify dry_run st₂ o with
      | error e₂ =>
        rw [hP1, hP2] at hrel
        have he : e₁ = e₂ := hrel
        subst he
        exact rfl
      | ok w₂ =>
        rw [hP1, hP2] at hrel
        obtain ⟨out₂, st₂1⟩ := w₂
        exact absurd hrel (by simp [stripRel])
    | ok w₁ =>
      obtain ⟨out₁, st₁1⟩ := w₁
      cases hP2 : processOrder config db₂ notify dry_run st₂ o with
      | error e₂ =>
        rw [hP1, hP2] at hrel
        exact absurd hrel (by simp [stripRel])
      | ok w₂ =>
        obtain ⟨out₂, st₂1⟩ := w₂
        rw [hP1, hP2] at hrel
        obtain ⟨hout, hst1⟩ : out₁ = out₂ ∧ stripNotify st₁1 = stripNotify st₂1 := hrel
        subst hout
        have hrec := ih st₁1 st₂1 hst1
        simp only []
        cases hR1 : processOrdersFrom config db₁ notify dry_run rest st₁1 with
        | error e₁ =>
          cases hR2 : processOrdersFrom config db₂ notify dry_run rest st₂1 with
          | error e₂ =>
            rw [hR1, hR2] at hrec
            have he : e₁ = e₂ := hrec
            subst he
            simp only []
            cases out₁ <;> exact rfl
          | ok v₂ =>
            rw [hR1, hR2] at hrec
            obtain ⟨ps₂, fs₂, finals₂, st₂2⟩ := v₂
            exact absurd hrec (by simp [stripRelRun])
        | ok v₁ =>
          obtain ⟨ps₁, fs₁, finals₁, st₁2⟩ := v₁
          cases hR2 : processOrdersFrom config db₂ notify dry_run rest st₂1 with
          | error e₂ =>
            rw [hR1, hR2] at hrec
            exact absurd hrec (by simp [stripRelRun])
          | ok v₂ =>
            obtain ⟨ps₂, fs₂, finals₂, st₂2⟩ := v₂
            rw [hR1, hR2] at hrec
            obtain ⟨hps, hfs, hfin, hst2⟩ : ps₁ = ps₂ ∧ fs₁ = fs₂ ∧ finals₁ = finals₂ ∧
              stripNotify st₁2 = stripNotify st₂2 := hrec
            subst hps; subst hfs; subst hfin
            simp only []
            cases out₁ with
            | skipped => exact ⟨rfl, rfl, rfl, hst2⟩
            | failedO f => exact ⟨rfl, rfl, rfl, hst2⟩
            | processedO r ord => exact ⟨rfl, rfl, rfl, hst2⟩

/-- Claim C7: the batch result, the final order values, and the whole final
state apart from delivered notifications are identical whether the notifier
errors on every send or succeeds on every send — a notification failure is
swallowed, never fails the order or the batch, and the order is still
recorded processed. -/
theorem claim_C7 (orders : List (Option Order)) (db : Db) (config : Config)
    (notify dry_run : Bool) :
    (process_orders orders { db with notify_ok := false } config notify dry_run).map
        exceptNotify =
      (process_orders orders { db with notify_ok := true } config notify dry_run).map
        exceptNotify := by
  have hrel := processOrdersFrom_stripRel config { db with notify_ok := false }
    { db with notify_ok := true } rfl rfl rfl rfl notify dry_run orders
    (initSt { db with notify_ok := false }) (initSt { db with notify_ok := true }) rfl
  unfold process_orders
  cases hR1 : processOrdersFrom config { db with notify_ok := false } notify dry_run orders
      (initSt { db with notify_ok := false }) with
  | error e₁ =>
    cases hR2 : processOrdersFrom config { db with notify_ok := true } notify dry_run orders
        (initSt { db with notify_ok := true }) with
    | error e₂ =>
      rw [hR1, hR2] at hrel
      have he : e₁ = e₂ := hrel
      subst he
      rfl
    | ok v₂ =>
      rw [hR1, hR2] at hrel
      obtain ⟨ps₂, fs₂, finals₂, st₂2⟩ := v₂
      exact absurd hrel (by simp [stripRelRun])
  | ok v₁ =>
    obtain ⟨ps₁, fs₁, finals₁, st₁2⟩ := v₁
    cases hR2 : processOrdersFrom config { db with notify_ok := true } notify dry_run orders
        (initSt { db with notify_ok := true }) with
    | error e₂ =>
      rw [hR1, hR2] at hrel
      exact absurd hrel (by simp [stripRelRun])
    | ok v₂ =>
      obtain ⟨ps₂, fs₂, finals₂, st₂2⟩ := v₂
      rw [hR1, hR2] at hrel
      obtain ⟨hps, hfs, hfin, hst2⟩ : ps₁ = ps₂ ∧ fs₁ = fs₂ ∧ finals₁ = finals₂ ∧
        stripNotify st₁2 = stripNotify st₂2 := hrel
      subst hps; subst hfs; subst hfin
      simp [Except.map, exceptNotify, hst2]

/-- Counterexample for C5 as stated: two orders competing for three units of
"A" — the non-dry run processes the first, decrements the stock and fails
the second with insufficient stock, while the dry run processes both. The
processed/failed partitions of the two runs differ. -/
theorem claim_C5_counterexample :
    ¬ ((process_orders [some ordA, some ordB] dbShare cfgZero true false).map partitionOf =
       (process_orders [some ordA, some ordB] dbShare cfgZero true true).map partitionOf) := by
  have h1 : (process_orders [some ordA, some ordB] dbShare cfgZero true false).map
      partitionOf =
        .ok ([⟨1, 20, "processed"⟩], [⟨ordB, "insufficient stock for " ++ "A"⟩]) := by
    norm_num [process_orders, processOrdersFrom, processOrder, initSt, ordA, ordB, dbShare,
      cfgZero, lookupRow, stockCheck, insufficientB, decrementAll, updateDecrement,
      subtotalOf, partitionOf, Except.map,
      show ("active" : String) ≠ "banned" from by decide]
  have h2 : (process_orders [some ordA, some ordB] dbShare cfgZero true true).map
      partitionOf = .ok ([⟨1, 20, "processed"⟩, ⟨2, 20, "processed"⟩], []) := by
    norm_num [process_orders, processOrdersFrom, processOrder, initSt, ordA, ordB, dbShare,
      cfgZero, lookupRow, stockCheck, insufficientB, decrementAll, updateDecrement,
      subtotalOf, partitionOf, Except.map,
      show ("active" : String) ≠ "banned" from by decide]
  rw [h1, h2]
  simp

lemma lookupRow_updateDecrement_ne (sku : String) (q : Int) (s : String) (hs : s ≠ sku) :
    ∀ inv : List (String × Int),
      lookupRow (updateDecrement inv sku q) s = lookupRow inv s := by
  intro inv
  induction inv with
  | nil => rfl
  | cons kv rest ih =>
    obtain ⟨k, v⟩ := kv
    simp only [updateDecrement]
    by_cases hk : k = sku
    · rw [if_pos hk]
      have hks : ¬ k = s := fun he => hs (he.symm.trans hk)
      simp only [lookupRow, if_neg hks]
      exact ih
    · rw [if_neg hk]
      simp only [lookupRow]
      by_cases hks : k = s
      · rw [if_pos hks, if_pos hks]
      · rw [if_neg hks, if_neg hks]
        exact ih

lemma stockCheck_congr (inv₁ inv₂ : List (String × Int)) :
    ∀ items : List OrderItem,
      (∀ item ∈ items, lookupRow inv₁ item.sku = lookupRow inv₂ item.sku) →
      stockCheck inv₁ items = stockCheck inv₂ items := by
  intro items
  induction items with
  | nil => intro _; rfl
  | cons item rest ih =>
    intro hag
    have h0 : lookupRow inv₁ item.sku = lookupRow inv₂ item.sku :=
      hag item (List.mem_cons_self item rest)
    have hrest := ih (fun i hi => hag i (List.mem_cons_of_mem item hi))
    simp only [stockCheck, h0, hrest]

lemma decrementAll_lookup (db : Db) :
    ∀ (items : List OrderItem) (st st' : St), decrementAll db items st = .ok st' →
      st'.clock = st.clock ∧ st'.saved_orders = st.saved_orders ∧
      ∀ s, s ∉ items.map (fun i => i.sku) →
        lookupRow st'.inventory s = lookupRow st.inventory s := by
  intro items
  induction items with
  | nil =>
    intro st st' h
    simp only [decrementAll, Except.ok.injEq] at h
    subst h
    exact ⟨rfl, rfl, fun s _ => rfl⟩
  | cons item rest ih =>
    intro st st' h
    by_cases hd : db.decrement_ok item.sku item.quantity = true
    · rw [decrementAll, if_pos hd] at h
      obtain ⟨hclock, hsaved, hlook⟩ := ih _ st' h
      refine ⟨hclock, hsaved, ?_⟩
      intro s hs
      rw [List.map_cons, List.mem_cons, not_or] at hs
      obtain ⟨hs0, hs1⟩ := hs
      rw [hlook s hs1]
      exact lookupRow_updateDecrement_ne item.sku item.quantity s hs0 st.inventory
    · rw [decrementAll, if_neg hd] at h
      cases h

lemma processOrder_dry_run (config : Config) (db : Db) (notify : Bool)
    (st : St) (o : Option Order) :
    ∃ out st', processOrder config db notify true st o = .ok (out, st') ∧
      Outcome.finalOf o out = o ∧
      st'.inventory = st.inventory ∧ st'.saved_orders = st.saved_orders ∧
      ∃ tr, st'.trace = st.trace ++ tr ∧ ∀ e ∈ tr, e.isCommit = false := by
  have htrq : ∀ (cid : Nat) (skus : List String),
      ∀ e ∈ Effect.queryCustomer cid :: skus.map Effect.queryInventory,
        Effect.isCommit e = false := by
    intro cid skus e he
    rcases List.mem_cons.mp he with rfl | hm
    · rfl
    · obtain ⟨s, -, rfl⟩ := List.mem_map.mp hm
      rfl
  cases o with
  | none => exact ⟨.skipped, st, rfl, rfl, rfl, rfl, [], by simp, by simp⟩
  | some order =>
    simp only [processOrder]
    by_cases h1 : order.status = some "pending"
    case neg =>
      rw [if_pos h1]
      exact ⟨.skipped, st, rfl, rfl, rfl, rfl, [], by simp, by simp⟩
    case pos =>
      rw [if_neg (not_not_intro h1)]
      by_cases h2 : order.total.getD 0 ≤ 0
      · rw [if_pos h2]
        exact ⟨_, st, rfl, rfl, rfl, rfl, [], by simp, by simp⟩
      · rw [if_neg h2]
        cases h3 : lookupRow db.customers order.customer_id with
        | none =>
          simp only [h3]
          exact ⟨_, _, rfl, rfl, rfl, rfl, [.queryCustomer order.customer_id],
            by simp, by simp [Effect.isCommit]⟩
        | some customer =>
          simp only [h3]
          by_cases h4 : customer.status = "banned"
          · rw [if_pos h4]
            exact ⟨_, _, rfl, rfl, rfl, rfl, [.queryCustomer order.customer_id],
              by simp, by simp [Effect.isCommit]⟩
          · rw [if_neg h4]
            cases h5 : (stockCheck st.inventory order.items).2 with
            | some sku =>
              simp only [h5]
              refine ⟨_, _, rfl, rfl, rfl, rfl,
                Effect.queryCustomer order.customer_id ::
                  (stockCheck st.inventory order.items).1.map Effect.queryInventory,
                by simp, htrq order.customer_id (stockCheck st.inventory order.items).1⟩
            | none =>
              simp only [h5]
              by_cases hm : |subtotalOf order.items +
                  subtotalOf order.items * config.tax_rate +
                  (if subtotalOf order.items > config.free_shipping_threshold then 0
                   else config.shipping_rate) - order.total.getD 0| > 1/100
              · simp only [if_pos hm]
                refine ⟨_, _, rfl, rfl, rfl, rfl,
                  Effect.queryCustomer order.customer_id ::
                    (stockCheck st.inventory order.items).1.map Effect.queryInventory,
                  by simp, htrq order.customer_id (stockCheck st.inventory order.items).1⟩
              · simp only [if_neg hm]
                rw [if_pos trivial]
                refine ⟨_, _, rfl, rfl, rfl, rfl,
                  Effect.queryCustomer order.customer_id ::
                    (stockCheck st.inventory order.items).1.map Effect.queryInventory,
                  by simp, htrq order.customer_id (stockCheck st.inventory order.items).1⟩

lemma processOrdersFrom_dry (config : Config) (db : Db) (notify : Bool) :
    ∀ (orders : List (Option Order)) (st : St), ∃ ps fs st',
      processOrdersFrom config db notify true orders st = .ok (ps, fs, orders, st') ∧
      st'.inventory = st.inventory ∧ st'.saved_orders = st.saved_orders ∧
      ∃ tr, st'.trace = st.trace ++ tr ∧ ∀ e ∈ tr, e.isCommit = false := by
  intro orders
  induction orders with
  | nil =>
    intro st
    exact ⟨[], [], st, rfl, rfl, rfl, [], by simp, by simp⟩
  | cons o rest ih =>
    intro st
    obtain ⟨out, st1, hP, hfin, hinv1, hsaved1, tr1, htr1, hc1⟩ :=
      processOrder_dry_run config db notify st o
    obtain ⟨ps, fs, st', hR, hinv2, hsaved2, tr2, htr2, hc2⟩ := ih st1
    have htr : st'.trace = st.trace ++ (tr1 ++ tr2) := by
      rw [htr2, htr1, List.append_assoc]
    have hcc : ∀ e ∈ tr1 ++ tr2, Effect.isCommit e = false := by
      intro e he
      rcases List.mem_append.mp he with h | h
      · exact hc1 e h
      · exact hc2 e h
    cases out with
    | skipped =>
      refine ⟨ps, fs, st', ?_, hinv2.trans hinv1, hsaved2.trans hsaved1,
        tr1 ++ tr2, htr, hcc⟩
      simp only [processOrdersFrom, hP, hR]
    | failedO f =>
      refine ⟨ps, f :: fs, st', ?_, hinv2.trans hinv1, hsaved2.trans hsaved1,
        tr1 ++ tr2, htr, hcc⟩
      simp only [processOrdersFrom, hP, hR]
    | processedO r ord =>
      have ho : o = some ord := by simpa [Outcome.finalOf] using hfin.symm
      subst ho
      refine ⟨r :: ps, fs, st', ?_, hinv2.trans hinv1, hsaved2.trans hsaved1,
        tr1 ++ tr2, htr, hcc⟩
      simp only [processOrdersFrom, hP, hR]

lemma processOrder_dry_agree (config : Config) (db : Db) (notify : Bool) (hok : AllOk db)
    (st₁ st₂ : St) (o : Option Order)
    (hag : ∀ s ∈ orderSkus o, lookupRow st₁.inventory s = lookupRow st₂.inventory s) :
    ∃ out₁ st₁' out₂ st₂',
      processOrder config db notify false st₁ o = .ok (out₁, st₁') ∧
      processOrder config db notify true st₂ o = .ok (out₂, st₂') ∧
      Outcome.procOf out₁ = Outcome.procOf out₂ ∧
      Outcome.failOf out₁ = Outcome.failOf out₂ ∧
      (∀ s, s ∉ orderSkus o → lookupRow st₁'.inventory s = lookupRow st₁.inventory s) ∧
      st₂'.inventory = st₂.inventory := by
  obtain ⟨hdec, hsave, hlog⟩ := hok
  cases o with
  | none => exact ⟨.skipped, st₁, .skipped, st₂, rfl, rfl, rfl, rfl, fun s _ => rfl, rfl⟩
  | some order =>
    have hsc : stockCheck st₂.inventory order.items =
        stockCheck st₁.inventory order.items :=
      (stockCheck_congr st₁.inventory st₂.inventory order.items
        (fun item hi => hag item.sku (List.mem_map_of_mem _ hi))).symm
    simp only [processOrder, hsc]
    by_cases h1 : order.status = some "pending"
    case neg =>
      rw [if_pos h1, if_pos h1]
      exact ⟨.skipped, st₁, .skipped, st₂, rfl, rfl, rfl, rfl, fun s _ => rfl, rfl⟩
    case pos =>
      rw [if_neg (not_not_intro h1), if_neg (not_not_intro h1)]
      by_cases h2 : order.total.getD 0 ≤ 0
      · rw [if_pos h2, if_pos h2]
        exact ⟨_, st₁, _, st₂, rfl, rfl, rfl, rfl, fun s _ => rfl, rfl⟩
      · rw [if_neg h2, if_neg h2]
        cases h3 : lookupRow db.customers order.customer_id with
        | none =>
          simp only [h3]
          exact ⟨_, _, _, _, rfl, rfl, rfl, rfl, fun s _ => rfl, rfl⟩
        | some customer =>
          simp only [h3]
          by_cases h4 : customer.status = "banned"
          · rw [if_pos h4, if_pos h4]
            exact ⟨_, _, _, _, rfl, rfl, rfl, rfl, fun s _ => rfl, rfl⟩
          · rw [if_neg h4, if_neg h4]
            cases h5 : (stockCheck st₁.inventory order.items).2 with
            | some sku =>
              simp only [h5]
              exact ⟨_, _, _, _, rfl, rfl, rfl, rfl, fun s _ => rfl, rfl⟩
            | none =>
              simp only [h5]
              by_cases hm : |subtotalOf order.items +
                  subtotalOf order.items * config.tax_rate +
                  (if subtotalOf order.items > config.free_shipping_threshold then 0
                   else config.shipping_rate) - order.total.getD 0| > 1/100
              · simp only [if_pos hm]
                exact ⟨_, _, _, _, rfl, rfl, rfl, rfl, fun s _ => rfl, rfl⟩
              · simp only [if_neg hm]
                rw [if_pos trivial]
                rw [if_neg Bool.false_ne_true]
                split
                next e heq =>
                  exact absurd heq (decrementAll_ne_error db hdec order.items _ e)
                next st₃ heq =>
                  rw [if_pos hsave, if_pos hlog]
                  refine ⟨_, _, _, _, rfl, rfl, rfl, rfl, ?_, rfl⟩
                  intro s hs
                  have hs' : s ∉ order.items.map (fun i => i.sku) := by
                    simpa [orderSkus] using hs
                  have h3 := (decrementAll_lookup db order.items _ st₃ heq).2.2 s hs'
                  simpa [apply_ite St.inventory, ite_self] using h3

lemma processOrdersFrom_dry_agree (config : Config) (db : Db) (notify : Bool)
    (hok : AllOk db) :
    ∀ (orders : List (Option Order)) (st₁ st₂ : St),
      (∀ o ∈ orders, ∀ s ∈ orderSkus o,
        lookupRow st₁.inventory s = lookupRow st₂.inventory s) →
      DisjointSkus orders →
      ∃ ps fs finals₁ st₁' finals₂ st₂',
        processOrdersFrom config db notify false orders st₁ = .ok (ps, fs, finals₁, st₁') ∧
        processOrdersFrom config db notify true orders st₂ = .ok (ps, fs, finals₂, st₂') := by
  intro orders
  induction orders with
  | nil => intro st₁ st₂ _ _; exact ⟨[], [], [], st₁, [], st₂, rfl, rfl⟩
  | cons o rest ih =>
    intro st₁ st₂ hag hdisj
    obtain ⟨out₁, st₁', out₂, st₂', hP1, hP2, hproc, hfail, hpres, hinv2⟩ :=
      processOrder_dry_agree config db notify hok st₁ st₂ o
        (hag o (List.mem_cons_self o rest))
    rw [DisjointSkus, List.pairwise_cons] at hdisj
    obtain ⟨hdisj0, hdisj'⟩ := hdisj
    have hag' : ∀ o' ∈ rest, ∀ s ∈ orderSkus o',
        lookupRow st₁'.inventory s = lookupRow st₂'.inventory s := by
      intro o' ho' s hs
      have hnotin : s ∉ orderSkus o := fun hmem => hdisj0 o' ho' s hmem hs
      rw [hpres s hnotin, hinv2]
      exact hag o' (List.mem_cons_of_mem o ho') s hs
    obtain ⟨ps, fs, finals₁, st₁2, finals₂, st₂2, hR1, hR2⟩ := ih st₁' st₂' hag' hdisj'
    cases out₁ with
    | skipped =>
      have hout2 : out₂ = .skipped := by
        cases out₂ with
        | skipped => rfl
        | failedO f => simp [Outcome.failOf] at hfail
        | processedO r ord => simp [Outcome.procOf] at hproc
      subst hout2
      exact ⟨ps, fs, o :: finals₁, st₁2, o :: finals₂, st₂2,
        by simp only [processOrdersFrom, hP1, hR1],
        by simp only [processOrdersFrom, hP2, hR2]⟩
    | failedO f =>
      have hout2 : out₂ = .failedO f := by
        cases out₂ with
        | skipped => simp [Outcome.failOf] at hfail
        | failedO f2 =>
          simp only [Outcome.failOf, Option.some.injEq] at hfail
          rw [hfail]
        | processedO r ord => simp [Outcome.failOf] at hfail
      subst hout2
      exact ⟨ps, f :: fs, o :: finals₁, st₁2, o :: finals₂, st₂2,
        by simp only [processOrdersFrom, hP1, hR1],
        by simp only [processOrdersFrom, hP2, hR2]⟩
    | processedO r ord =>
      obtain ⟨ord2, hout2⟩ : ∃ ord2, out₂ = .processedO r ord2 := by
        cases out₂ with
        | skipped => simp [Outcome.procOf] at hproc
        | failedO f2 => simp [Outcome.procOf] at hproc
        | processedO r2 ord2 =>
          simp only [Outcome.procOf, Option.some.injEq] at hproc
          exact ⟨ord2, by rw [hproc]⟩
      subst hout2
      exact ⟨r :: ps, fs, some ord :: finals₁, st₁2, some ord2 :: finals₂, st₂2,
        by simp only [processOrdersFrom, hP1, hR1],
        by simp only [processOrdersFrom, hP2, hR2]⟩

/-- Claim C5, amended: a dry run always returns a result, leaves every
order value, the inventory and the saved-order table untouched and performs
no commit effect, while still recording every validated order as processed
with its computed total; and its processed/failed partition is identical to
that of a non-dry run on the same inputs provided every store and log
operation succeeds and no SKU occurs in two different orders of the batch
(the counterexample shows that an earlier order's inventory decrement can
otherwise change a later order's stock check and hence the partition). -/
theorem claim_C5 (orders : List (Option Order)) (db : Db) (config : Config)
    (notify : Bool) (hok : AllOk db) (hdisj : DisjointSkus orders) :
    (∃ br finals st', process_orders orders db config notify true = .ok (br, finals, st') ∧
       finals = orders ∧ st'.inventory = db.inventory ∧ st'.saved_orders = [] ∧
       ∀ e ∈ st'.trace, e.isCommit = false) ∧
    (process_orders orders db config notify false).map partitionOf =
      (process_orders orders db config notify true).map partitionOf := by
  constructor
  · obtain ⟨ps, fs, st', hF, hinv, hsaved, tr, htr, hc⟩ :=
      processOrdersFrom_dry config db notify orders (initSt db)
    refine ⟨⟨ps, fs, ⟨ps.length, fs.length⟩⟩, orders, st', ?_, rfl, hinv, hsaved, ?_⟩
    · unfold process_orders
      rw [hF]
    · intro e he
      rw [htr] at he
      exact hc e (by simpa [initSt] using he)
  · obtain ⟨ps, fs, finals₁, st₁', finals₂, st₂', hR1, hR2⟩ :=
      processOrdersFrom_dry_agree config db notify hok orders (initSt db) (initSt db)
        (fun o _ s _ => rfl) hdisj
    unfold process_orders
    rw [hR1, hR2]
    rfl

/-- Witness for the amended C5 at a concrete input: a two-order batch with
disjoint SKUs under the all-succeeding environment. -/
theorem claim_C5_witness :
    AllOk dbW ∧ DisjointSkus [some ordPaid, some ordEmpty] ∧
    ((∃ br finals st',
        process_orders [some ordPaid, some ordEmpty] dbW cfgW true true =
          .ok (br, finals, st') ∧
        finals = [some ordPaid, some ordEmpty] ∧ st'.inventory = dbW.inventory ∧
        st'.saved_orders = [] ∧ ∀ e ∈ st'.trace, e.isCommit = false) ∧
     (process_orders [some ordPaid, some ordEmpty] dbW cfgW true false).map partitionOf =
       (process_orders [some ordPaid, some ordEmpty] dbW cfgW true true).map partitionOf) := by
  have hok : AllOk dbW := ⟨fun _ _ => rfl, rfl, rfl⟩
  have hdisj : DisjointSkus [some ordPaid, some ordEmpty] := by
    simp [DisjointSkus, List.pairwise_cons, orderSkus, ordPaid, ordEmpty]
  exact ⟨hok, hdisj, claim_C5 [some ordPaid, some ordEmpty] dbW cfgW true hok hdisj⟩

/-- Claim C10: an order with an empty item list that passes the skip,
total-sanity and customer stages has a vacuous stock check (no stock row is
queried), zero subtotal and tax, computed total equal to the flat shipping
rate when the free-shipping threshold is nonnegative, is processed exactly
when that rate is within `1/100` of the declared total, and never has
inventory decremented. -/
theorem claim_C10 (config : Config) (db : Db) (notify dry_run : Bool) (st : St)
    (order : Order) (customer : Customer)
    (hitems : order.items = [])
    (hpend : order.status = some "pending")
    (htot : 0 < order.total.getD 0)
    (hcust : lookupRow db.customers order.customer_id = some customer)
    (hban : customer.status ≠ "banned")
    (hthr : 0 ≤ config.free_shipping_threshold)
    (hsave : db.save_ok = true) (hlog : db.log_ok = true) :
    subtotalOf order.items = 0 ∧
    subtotalOf order.items * config.tax_rate = 0 ∧
    subtotalOf order.items + subtotalOf order.items * config.tax_rate +
      (if subtotalOf order.items > config.free_shipping_threshold then 0
       else config.shipping_rate) = config.shipping_rate ∧
    stockCheck st.inventory order.items = ([], none) ∧
    (|config.shipping_rate - order.total.getD 0| ≤ 1/100 →
      ∃ ord2 st', processOrder config db notify dry_run st (some order) =
        .ok (.processedO ⟨order.id, config.shipping_rate, "processed"⟩ ord2, st') ∧
        st'.inventory = st.inventory ∧
        (∀ s q, Effect.decrementInventory s q ∈ st'.trace →
          Effect.decrementInventory s q ∈ st.trace) ∧
        (∀ s, Effect.queryInventory s ∈ st'.trace →
          Effect.queryInventory s ∈ st.trace)) ∧
    (¬ |config.shipping_rate - order.total.getD 0| ≤ 1/100 →
      processOrder config db notify dry_run st (some order) =
        .ok (.failedO ⟨order, "total mismatch"⟩,
          { st with trace := st.trace ++ [.queryCustomer order.customer_id] })) := by
  have hsub : subtotalOf order.items = 0 := by simp [subtotalOf, hitems]
  have htax : subtotalOf order.items * config.tax_rate = 0 := by rw [hsub]; ring
  have hship : ¬ subtotalOf order.items > config.free_shipping_threshold := by
    rw [hsub]; exact not_lt.mpr hthr
  have htotal : subtotalOf order.items + subtotalOf order.items * config.tax_rate +
      (if subtotalOf order.items > config.free_shipping_threshold then 0
       else config.shipping_rate) = config.shipping_rate := by
    rw [if_neg hship, hsub]; ring
  have hstock : stockCheck st.inventory order.items = ([], none) := by rw [hitems]; rfl
  refine ⟨hsub, htax, htotal, hstock, ?_, ?_⟩
  · intro htol
    simp only [processOrder]
    rw [if_neg (not_not_intro hpend), if_neg (not_le.mpr htot)]
    simp only [hcust]
    rw [if_neg hban]
    simp only [hstock, htotal, List.map_nil, List.append_nil]
    rw [if_neg (not_lt.mpr htol)]
    cases dry_run with
    | true =>
      rw [if_pos rfl]
      refine ⟨order, _, rfl, rfl, ?_, ?_⟩
      · intro s q h
        simpa using h
      · intro s h
        simpa using h
    | false =>
      rw [if_neg Bool.false_ne_true]
      rw [hitems]
      simp only [decrementAll]
      rw [if_pos hsave, if_pos hlog]
      refine ⟨_, _, rfl, ?_, ?_, ?_⟩
      · simp [apply_ite St.inventory, ite_self]
      · intro s q h
        simp only [apply_ite St.trace] at h
        by_cases hn : (notify && db.notify_ok) = true <;>
          simpa [hn, List.mem_append] using h
      · intro s h
        simp only [apply_ite St.trace] at h
        by_cases hn : (notify && db.notify_ok) = true <;>
          simpa [hn, List.mem_append] using h
  · intro hm
    simp only [processOrder]
    rw [if_neg (not_not_intro hpend), if_neg (not_le.mpr htot)]
    simp only [hcust]
    rw [if_neg hban]
    simp only [hstock, htotal, List.map_nil, List.append_nil]
    rw [if_pos (not_le.mp hm)]

/-- Witness for C10 at a concrete input: a pending empty order declaring
exactly the flat rate 5 is processed with total 5 and no inventory touched. -/
theorem claim_C10_witness :
    subtotalOf ordEmpty.items = 0 ∧
    subtotalOf ordEmpty.items * cfgW.tax_rate = 0 ∧
    subtotalOf ordEmpty.items + subtotalOf ordEmpty.items * cfgW.tax_rate +
      (if subtotalOf ordEmpty.items > cfgW.free_shipping_threshold then 0
       else cfgW.shipping_rate) = cfgW.shipping_rate ∧
    stockCheck (initSt dbW).inventory ordEmpty.items = ([], none) ∧
    (|cfgW.shipping_rate - ordEmpty.total.getD 0| ≤ 1/100 →
      ∃ ord2 st', processOrder cfgW dbW true false (initSt dbW) (some ordEmpty) =
        .ok (.processedO ⟨ordEmpty.id, cfgW.shipping_rate, "processed"⟩ ord2, st') ∧
        st'.inventory = (initSt dbW).inventory ∧
        (∀ s q, Effect.decrementInventory s q ∈ st'.trace →
          Effect.decrementInventory s q ∈ (initSt dbW).trace) ∧
        (∀ s, Effect.queryInventory s ∈ st'.trace →
          Effect.queryInventory s ∈ (initSt dbW).trace)) ∧
    (¬ |cfgW.shipping_rate - ordEmpty.total.getD 0| ≤ 1/100 →
      processOrder cfgW dbW true false (initSt dbW) (some ordEmpty) =
        .ok (.failedO ⟨ordEmpty, "total mismatch"⟩,
          { initSt dbW with trace :=
              (initSt dbW).trace ++ [.queryCustomer ordEmpty.customer_id] })) :=
  claim_C10 cfgW dbW true false (initSt dbW) ordEmpty ⟨1, "active"⟩
    rfl rfl (by norm_num [ordEmpty]) rfl (by decide) (by norm_num [cfgW]) rfl rfl

end OrderPipeline
